import Mathlib

/-!
# Swagger manager backend: request handlers over explicit stores

A shallow embedding of `src/controllers/endpointController.js`,
`src/controllers/projectController.js` and the schema of
`src/models/Endpoint.js`.

Modelling conventions.

* The two Mongo collections and the directory of generated files are explicit
  state (`State`); every handler is a function from the request and the state
  to the response and the next state.
* An `ObjectId` is represented by its canonical string, so `x.toString()` is the
  identity and `===` on identifiers is equality of strings.  `_id` is the
  primary key of a collection.  An identifier that arrives in a request is an
  arbitrary string: `findById` casts it, and a string that is not a well-formed
  identifier (24 hexadecimal digits) makes the query throw a `CastError`.
* A request body is typed JSON: a field is either absent (`none`, JavaScript
  `undefined`) or carries a value of the type the schema declares for it.
  `requestBody` has schema type `Object` (mixed), so it may hold any JSON value.
* Store operations do not fail for external reasons; an exception is raised
  only by the cast of an identifier, by schema validation or by a duplicate
  primary key, and it is turned into the status 500 by the handler's `catch`
  block.
* What the JavaScript runtime and the modules absent from `src/` provide
  (upper-casing, trimming, string length, the document generator) is
  collected in `Runtime`; the general theorems quantify over every runtime, and
  `sampleRuntime` is used where a handler is evaluated on concrete data.
-/

namespace SwaggerManager

/-! ## Data model -/

/-- Canonical string form of a Mongo object identifier. -/
abbrev ObjectId := String

/-- A hexadecimal digit. -/
def isHexDigit (c : Char) : Bool :=
  (decide (48 ≤ c.toNat) && decide (c.toNat ≤ 57))
    || (decide (97 ≤ c.toNat) && decide (c.toNat ≤ 102))
    || (decide (65 ≤ c.toNat) && decide (c.toNat ≤ 70))

/-- The strings that cast to an object identifier: 24 hexadecimal digits. -/
def isObjectId (id : String) : Bool :=
  id.data.length == 24 && id.data.all isHexDigit

/-- The outcome of a `findById` query: the cast of the identifier throws, or the
query resolves to `null`, or it resolves to a document. -/
inductive Lookup (α : Type) where
  | castError
  | notFound
  | found (doc : α)
  deriving DecidableEq, Repr

/-- The document of a lookup, if there is one. -/
def Lookup.toOption {α : Type} : Lookup α → Option α
  | .found doc => some doc
  | _ => none

/-- A JSON value of schema type `Object` (mixed).  The content of arrays and
objects is opaque to the handlers, which only test such values for truthiness
and copy them, so it is kept in serialised form. -/
inductive Mixed where
  | null
  | bool (b : Bool)
  | num (n : Int)
  | str (s : String)
  | arr (json : String)
  | obj (json : String)
  deriving DecidableEq, Repr

/-- An endpoint document, after `src/models/Endpoint.js` (with `timestamps: true`). -/
structure Endpoint where
  _id : ObjectId
  projectId : ObjectId
  path : String
  method : String
  summary : String
  description : String
  tags : List String
  parameters : List Mixed
  requestBody : Mixed
  responses : List Mixed
  security : List String
  deprecated : Bool
  createdAt : Nat
  updatedAt : Nat
  deriving DecidableEq, Repr

/-- Modelled from the spec: the schema file `models/Project.js` is not part of
the sources.  A project has a name, a description, an owner (`createdBy`), the
collaborators (`teamMembers`), the ordered list of endpoint references
(`endpoints`) and a creation timestamp; these are the fields the controllers
read and write. -/
structure Project where
  _id : ObjectId
  name : String
  description : String
  createdBy : ObjectId
  teamMembers : List ObjectId
  endpoints : List ObjectId
  createdAt : Nat
  deriving DecidableEq, Repr

/-- The persistent state: both collections and the generated files, the latter
as pairs of project identifier and serialised document. -/
structure State where
  projects : List Project
  endpoints : List Endpoint
  swaggerFiles : List (ObjectId × String)
  deriving DecidableEq, Repr

/-- What the handlers take from outside `src/`: the string primitives of the
JavaScript runtime used by the schema setters and validators of scalar paths, and
`SwaggerGenerator.generateSwaggerJson`. -/
structure Runtime where
  toUpperCase : String → String
  trim : String → String
  length : String → Nat
  generateSwaggerJson : Project → List Endpoint → String

/-! ## Responses -/

/-- The JSON payload of a response. -/
inductive Body where
  | message (text : String)
  | created (_id : ObjectId) (path method summary : String) (tags : List String)
  | endpoint (e : Endpoint)
  | endpoints (es : List Endpoint)
  | projectInfo (_id : ObjectId) (name description : String) (teamMembers : List ObjectId)
  | swagger (doc : String)
  deriving DecidableEq, Repr

/-- An HTTP response: `res.status(n).json(body)`; `res.json(body)` has status 200. -/
structure Response where
  status : Nat
  body : Body
  deriving DecidableEq, Repr

/-! ## JavaScript truthiness on typed fields -/

/-- Truthiness of a string-valued field: `undefined` and `''` are falsy. -/
def truthyStr : Option String → Bool
  | some s => s != ""
  | none => false

/-- Truthiness of an array-valued field: every array, the empty one included, is truthy. -/
def truthyArr {α : Type} : Option (List α) → Bool
  | some _ => true
  | none => false

/-- Truthiness of a mixed JSON value. -/
def Mixed.truthy : Mixed → Bool
  | .null => false
  | .bool b => b
  | .num n => n != 0
  | .str s => s != ""
  | .arr _ => true
  | .obj _ => true

/-- Truthiness of a mixed field. -/
def truthyMixed : Option Mixed → Bool
  | some v => v.truthy
  | none => false

/-- The expression `x || d` for a string field. -/
def orStr (x : Option String) (d : String) : String :=
  match x with
  | some s => if s != "" then s else d
  | none => d

/-- The expression `x || d` for an array field. -/
def orArr {α : Type} (x : Option (List α)) (d : List α) : List α :=
  match x with
  | some l => l
  | none => d

/-- The expression `x || d` for a mixed field. -/
def orMixed (x : Option Mixed) (d : Mixed) : Mixed :=
  match x with
  | some v => if v.truthy then v else d
  | none => d

/-- The expression `x || d` for a boolean field. -/
def orBool (x : Option Bool) (d : Bool) : Bool :=
  match x with
  | some b => b || d
  | none => d

/-! ## The endpoint schema -/

/-- The validator of `path`: `v.startsWith('/')`. -/
def startsWithSlash (v : String) : Bool :=
  match v.data with
  | c :: _ => c == '/'
  | [] => false

/-- The enum of `method`. -/
def methodValues : List String :=
  ["GET", "POST", "PUT", "DELETE", "PATCH", "OPTIONS", "HEAD"]

/-- The enum of `security`. -/
def securityValues : List String :=
  ["bearerAuth", "apiKey", "oauth2"]

/-- The setter of `path` (`trim: true`). -/
def setPath (rt : Runtime) (v : String) : String := rt.trim v

/-- The setter of `method` (`uppercase: true`). -/
def setMethod (rt : Runtime) (v : String) : String := rt.toUpperCase v

/-- The setter of `tags`.  The options `lowercase: true, trim: true` are declared
on the array path `tags`, not on its elements, and mongoose does not apply them
to the elements: the tags are stored as sent. -/
def setTags (v : List String) : List String := v

/-- Schema validation run by `endpoint.save()`: the `required` checks (a required
string must be non-empty), the `path` validator, the enums and the length caps. -/
def Endpoint.validate (rt : Runtime) (e : Endpoint) : Bool :=
  e.path != "" && startsWithSlash e.path
    && (e.method != "" && decide (e.method ∈ methodValues))
    && (e.summary != "" && decide (rt.length e.summary ≤ 200))
    && decide (rt.length e.description ≤ 1000)
    && e.security.all (fun x => decide (x ∈ securityValues))

/-! ## Store operations -/

/-- The call `Project.findById(id)`: the identifier is cast first, and the query
throws a `CastError` when it is not well formed. -/
def Project.findById (ps : List Project) (id : String) : Lookup Project :=
  if isObjectId id then
    match ps.find? (fun p => p._id == id) with
    | some p => .found p
    | none => .notFound
  else .castError

/-- The call `project.save()` on a loaded project: the stored document with the
same `_id` is replaced. -/
def Project.save (ps : List Project) (p : Project) : List Project :=
  ps.map (fun q => if q._id = p._id then p else q)

/-- The call `Project.findByIdAndDelete(id)`. -/
def Project.findByIdAndDelete (ps : List Project) (id : ObjectId) : List Project :=
  ps.filter (fun p => p._id != id)

/-- The call `Endpoint.findById(id)`: the identifier is cast first, and the query
throws a `CastError` when it is not well formed. -/
def Endpoint.findById (es : List Endpoint) (id : String) : Lookup Endpoint :=
  if isObjectId id then
    match es.find? (fun e => e._id == id) with
    | some e => .found e
    | none => .notFound
  else .castError

/-- The query `Endpoint.find({ projectId })`. -/
def Endpoint.find (es : List Endpoint) (projectId : ObjectId) : List Endpoint :=
  es.filter (fun e => e.projectId == projectId)

/-- The call `endpoint.save()` on a new document: validation, then insertion; it
throws (`none`) on a validation error, and when `_id` is not an identifier that
is free in the collection (it does not cast, or it is a duplicate key). -/
def Endpoint.insert (rt : Runtime) (es : List Endpoint) (e : Endpoint) : Option (List Endpoint) :=
  if e.validate rt && decide (Endpoint.findById es e._id = Lookup.notFound) then
    some (es ++ [e])
  else none

/-- The call `endpoint.save()` on a loaded document: validation, then replacement
of the stored document with the same `_id`; it throws (`none`) on a validation
error.  The whole document is validated; for a document that was stored through
these handlers this is the same as validating the assigned fields only. -/
def Endpoint.save (rt : Runtime) (es : List Endpoint) (e : Endpoint) : Option (List Endpoint) :=
  if e.validate rt then some (es.map (fun x => if x._id = e._id then e else x)) else none

/-- The call `Endpoint.findByIdAndDelete(id)`. -/
def Endpoint.findByIdAndDelete (es : List Endpoint) (id : ObjectId) : List Endpoint :=
  es.filter (fun e => e._id != id)

/-- The call `Endpoint.deleteMany({ projectId })`. -/
def Endpoint.deleteMany (es : List Endpoint) (projectId : ObjectId) : List Endpoint :=
  es.filter (fun e => e.projectId != projectId)

/-- Modelled from the spec: `swagger/swaggerGenerator.js` is not part of the
sources.  `saveSwaggerFile(projectId, doc)` writes the document to the location
addressed solely by the project identifier, fully overwriting any previous
version. -/
def saveSwaggerFile (files : List (ObjectId × String)) (projectId : ObjectId) (doc : String) :
    List (ObjectId × String) :=
  (projectId, doc) :: files.filter (fun f => f.1 != projectId)

/-- Modelled from the spec: reading the artifact of a project,
`fetch(projectId) -> document | NotFound`. -/
def fetchSwaggerFile (files : List (ObjectId × String)) (projectId : ObjectId) : Option String :=
  (files.find? (fun f => f.1 == projectId)).map (fun f => f.2)

/-- The access test repeated in the handlers:
`project.createdBy.toString() === req.user.id || project.teamMembers.includes(req.user.id)`. -/
def hasAccess (project : Project) (user : ObjectId) : Bool :=
  project.createdBy == user || project.teamMembers.contains user

/-! ## Request bodies -/

/-- The fields `createEndpoint` reads from `req.body`. -/
structure CreateEndpointBody where
  projectId : Option ObjectId
  path : Option String
  method : Option String
  summary : Option String
  description : Option String
  tags : Option (List String)
  parameters : Option (List Mixed)
  requestBody : Option Mixed
  responses : Option (List Mixed)
  security : Option (List String)
  deprecated : Option Bool
  deriving DecidableEq, Repr

/-- The fields `updateEndpoint` reads from `req.body`. -/
structure UpdateEndpointBody where
  path : Option String
  method : Option String
  summary : Option String
  description : Option String
  tags : Option (List String)
  parameters : Option (List Mixed)
  requestBody : Option Mixed
  responses : Option (List Mixed)
  security : Option (List String)
  deprecated : Option Bool
  deriving DecidableEq, Repr

/-- The fields `updateProject` reads from `req.body`. -/
structure UpdateProjectBody where
  name : Option String
  description : Option String
  teamMembers : Option (List ObjectId)
  deriving DecidableEq, Repr

/-- The default of `responses` in `createEndpoint`: the one-entry map for status 200. -/
def defaultResponses : List Mixed :=
  [Mixed.obj "200: Successful response"]

/-! ## Endpoint handlers (`controllers/endpointController.js`) -/

/-- The document built by `new Endpoint(...)` in `createEndpoint`, schema
setters applied. -/
def newEndpoint (rt : Runtime) (now : Nat) (newId : ObjectId) (body : CreateEndpointBody) :
    Endpoint :=
  { _id := newId
    projectId := body.projectId.getD ""
    path := setPath rt (body.path.getD "")
    method := setMethod rt (body.method.getD "")
    summary := body.summary.getD ""
    description := orStr body.description ""
    tags := setTags (orArr body.tags ["default"])
    parameters := orArr body.parameters []
    requestBody := orMixed body.requestBody Mixed.null
    responses := orArr body.responses defaultResponses
    security := orArr body.security ["bearerAuth"]
    deprecated := orBool body.deprecated false
    createdAt := now
    updatedAt := now }

/-- Handler `createEndpoint` (`POST /api/endpoints`).  `now` is the clock and
`newId` the identifier generated for the new document. -/
def createEndpoint (rt : Runtime) (now : Nat) (newId : ObjectId) (user : ObjectId)
    (body : CreateEndpointBody) (s : State) : Response × State :=
  if !truthyStr body.projectId || !truthyStr body.path || !truthyStr body.method
      || !truthyStr body.summary then
    (⟨400, .message "Project ID, path, method, and summary are required"⟩, s)
  else
    let projectId := body.projectId.getD ""
    match Project.findById s.projects projectId with
    | .castError => (⟨500, .message "Server error creating endpoint"⟩, s)
    | .notFound => (⟨404, .message "Project not found"⟩, s)
    | .found project =>
      if !hasAccess project user then
        (⟨403, .message "Access denied to this project"⟩, s)
      else
        let endpoint := newEndpoint rt now newId body
        match Endpoint.insert rt s.endpoints endpoint with
        | none => (⟨500, .message "Server error creating endpoint"⟩, s)
        | some stored =>
          let project1 := { project with endpoints := project.endpoints ++ [endpoint._id] }
          let projects1 := Project.save s.projects project1
          let endpoints := Endpoint.find stored projectId
          let swaggerJson := rt.generateSwaggerJson project1 endpoints
          let files1 := saveSwaggerFile s.swaggerFiles projectId swaggerJson
          (⟨201, .created endpoint._id endpoint.path endpoint.method endpoint.summary
              endpoint.tags⟩,
            { projects := projects1, endpoints := stored, swaggerFiles := files1 })

/-- Handler `getEndpointsByProject` (`GET /api/endpoints/project/:projectId`);
the result is sorted by `createdAt`, newest first. -/
def getEndpointsByProject (user : ObjectId) (projectId : ObjectId) (s : State) : Response :=
  match Project.findById s.projects projectId with
  | .castError => ⟨500, .message "Server error fetching endpoints"⟩
  | .notFound => ⟨404, .message "Project not found"⟩
  | .found project =>
    if !hasAccess project user then
      ⟨403, .message "Access denied to this project"⟩
    else
      let endpoints := (Endpoint.find s.endpoints projectId).insertionSort
        (fun a b => b.createdAt ≤ a.createdAt)
      ⟨200, .endpoints endpoints⟩

/-- Handler `getEndpointById` (`GET /api/endpoints/:id`). -/
def getEndpointById (user : ObjectId) (id : ObjectId) (s : State) : Response :=
  match Endpoint.findById s.endpoints id with
  | .castError => ⟨500, .message "Server error fetching endpoint"⟩
  | .notFound => ⟨404, .message "Endpoint not found"⟩
  | .found endpoint =>
    match Project.findById s.projects endpoint.projectId with
    | .castError => ⟨500, .message "Server error fetching endpoint"⟩
    | .notFound => ⟨404, .message "Project not found"⟩
    | .found project =>
      if !hasAccess project user then
        ⟨403, .message "Access denied"⟩
      else
        ⟨200, .endpoint endpoint⟩

/-- The block `// Update fields` of `updateEndpoint`, with the schema setters
and the assignment of `updatedAt`. -/
def applyEndpointUpdate (rt : Runtime) (now : Nat) (body : UpdateEndpointBody)
    (endpoint : Endpoint) : Endpoint :=
  { endpoint with
    path := if truthyStr body.path then setPath rt (body.path.getD "") else endpoint.path
    method := if truthyStr body.method then setMethod rt (body.method.getD "")
      else endpoint.method
    summary := if truthyStr body.summary then body.summary.getD "" else endpoint.summary
    description := match body.description with
      | some d => d
      | none => endpoint.description
    tags := if truthyArr body.tags then setTags (body.tags.getD []) else endpoint.tags
    parameters := if truthyArr body.parameters then body.parameters.getD []
      else endpoint.parameters
    requestBody := if truthyMixed body.requestBody then body.requestBody.getD Mixed.null
      else endpoint.requestBody
    responses := if truthyArr body.responses then body.responses.getD []
      else endpoint.responses
    security := if truthyArr body.security then body.security.getD [] else endpoint.security
    deprecated := match body.deprecated with
      | some d => d
      | none => endpoint.deprecated
    updatedAt := now }

/-- Handler `updateEndpoint` (`PUT /api/endpoints/:id`). -/
def updateEndpoint (rt : Runtime) (now : Nat) (user : ObjectId) (id : ObjectId)
    (body : UpdateEndpointBody) (s : State) : Response × State :=
  match Endpoint.findById s.endpoints id with
  | .castError => (⟨500, .message "Server error updating endpoint"⟩, s)
  | .notFound => (⟨404, .message "Endpoint not found"⟩, s)
  | .found endpoint =>
    match Project.findById s.projects endpoint.projectId with
    | .castError => (⟨500, .message "Server error updating endpoint"⟩, s)
    | .notFound => (⟨404, .message "Project not found"⟩, s)
    | .found project =>
      if !hasAccess project user then
        (⟨403, .message "Access denied"⟩, s)
      else
        let endpoint1 := applyEndpointUpdate rt now body endpoint
        match Endpoint.save rt s.endpoints endpoint1 with
        | none => (⟨500, .message "Server error updating endpoint"⟩, s)
        | some stored =>
          let endpoints := Endpoint.find stored endpoint1.projectId
          let swaggerJson := rt.generateSwaggerJson project endpoints
          let files1 := saveSwaggerFile s.swaggerFiles endpoint1.projectId swaggerJson
          (⟨200, .endpoint endpoint1⟩, { s with endpoints := stored, swaggerFiles := files1 })

/-- Handler `deleteEndpoint` (`DELETE /api/endpoints/:id`). -/
def deleteEndpoint (rt : Runtime) (user : ObjectId) (id : ObjectId) (s : State) :
    Response × State :=
  match Endpoint.findById s.endpoints id with
  | .castError => (⟨500, .message "Server error deleting endpoint"⟩, s)
  | .notFound => (⟨404, .message "Endpoint not found"⟩, s)
  | .found endpoint =>
    match Project.findById s.projects endpoint.projectId with
    | .castError => (⟨500, .message "Server error deleting endpoint"⟩, s)
    | .notFound => (⟨404, .message "Project not found"⟩, s)
    | .found project =>
      if !hasAccess project user then
        (⟨403, .message "Access denied"⟩, s)
      else
        let project1 := { project with endpoints := project.endpoints.filter (fun epId => epId != id) }
        let projects1 := Project.save s.projects project1
        let stored := Endpoint.findByIdAndDelete s.endpoints id
        let endpoints := Endpoint.find stored endpoint.projectId
        let swaggerJson := rt.generateSwaggerJson project1 endpoints
        let files1 := saveSwaggerFile s.swaggerFiles endpoint.projectId swaggerJson
        (⟨200, .message "Endpoint deleted successfully"⟩,
          { projects := projects1, endpoints := stored, swaggerFiles := files1 })

/-! ## Project handlers (`controllers/projectController.js`) -/

/-- The block `// Update fields` of `updateProject`. -/
def applyProjectUpdate (body : UpdateProjectBody) (project : Project) : Project :=
  { project with
    name := if truthyStr body.name then body.name.getD "" else project.name
    description := match body.description with
      | some d => d
      | none => project.description
    teamMembers := if truthyArr body.teamMembers then body.teamMembers.getD []
      else project.teamMembers }

/-- Handler `updateProject` (`PUT /api/projects/:id`). -/
def updateProject (user : ObjectId) (id : ObjectId) (body : UpdateProjectBody) (s : State) :
    Response × State :=
  match Project.findById s.projects id with
  | .castError => (⟨500, .message "Server error updating project"⟩, s)
  | .notFound => (⟨404, .message "Project not found"⟩, s)
  | .found project =>
    if project.createdBy != user then
      (⟨403, .message "Only project owner can update"⟩, s)
    else
      let project1 := applyProjectUpdate body project
      (⟨200, .projectInfo project1._id project1.name project1.description
          project1.teamMembers⟩,
        { s with projects := Project.save s.projects project1 })

/-- A write that `deleteProject` issues against the stores. -/
inductive Write where
  | endpointDeleteMany (projectId : ObjectId)
  | projectFindByIdAndDelete (id : ObjectId)
  deriving DecidableEq, Repr

/-- The effect of one write on the state. -/
def Write.run : Write → State → State
  | .endpointDeleteMany projectId, s =>
    { s with endpoints := Endpoint.deleteMany s.endpoints projectId }
  | .projectFindByIdAndDelete id, s =>
    { s with projects := Project.findByIdAndDelete s.projects id }

/-- The writes of a list applied one after the other, the head first. -/
def runWrites (ws : List Write) (s : State) : State :=
  ws.foldl (fun st w => w.run st) s

/-- The body of handler `deleteProject`: the response, and the writes it awaits
in program order (`Endpoint.deleteMany`, then `Project.findByIdAndDelete`). -/
def deleteProjectWrites (user : ObjectId) (id : String) (s : State) : Response × List Write :=
  match Project.findById s.projects id with
  | .castError => (⟨500, .message "Server error deleting project"⟩, [])
  | .notFound => (⟨404, .message "Project not found"⟩, [])
  | .found project =>
    if project.createdBy != user then
      (⟨403, .message "Only project owner can delete"⟩, [])
    else
      (⟨200, .message "Project deleted successfully"⟩,
        [Write.endpointDeleteMany id, Write.projectFindByIdAndDelete id])

/-- Handler `deleteProject` (`DELETE /api/projects/:id`): the response of the
body and the state after its writes. -/
def deleteProject (user : ObjectId) (id : String) (s : State) : Response × State :=
  ((deleteProjectWrites user id s).1, runWrites (deleteProjectWrites user id s).2 s)

/-- Handler `getProjectSwagger` (`GET /api/projects/:id/swagger`).  The route is
mounted without the `protect` middleware and the access test in the handler is
commented out, so the principal (`none` for an anonymous request) is not
consulted. -/
def getProjectSwagger (rt : Runtime) (_user : Option ObjectId) (id : ObjectId) (s : State) :
    Response × State :=
  match Project.findById s.projects id with
  | .castError => (⟨500, .message "Server error generating Swagger"⟩, s)
  | .notFound => (⟨404, .message "Project not found"⟩, s)
  | .found project =>
    let endpoints := Endpoint.find s.endpoints id
    let swaggerJson := rt.generateSwaggerJson project endpoints
    let files1 := saveSwaggerFile s.swaggerFiles id swaggerJson
    (⟨200, .swagger swaggerJson⟩, { s with swaggerFiles := files1 })

/-! ## A concrete runtime and a sample state, for evaluation -/

/-- ASCII upper-casing. -/
def asciiUpper (s : String) : String := ⟨s.data.map Char.toUpper⟩

/-- Removal of leading and trailing blanks. -/
def asciiTrim (s : String) : String :=
  ⟨((s.data.dropWhile (fun c => c == ' ')).reverse.dropWhile (fun c => c == ' ')).reverse⟩

/-- A generator for evaluation: the project name followed by one line per
endpoint. -/
def sampleGenerator (p : Project) (es : List Endpoint) : String :=
  String.join (p.name :: es.map (fun e => " " ++ e.method ++ " " ++ e.path))

/-- A runtime for evaluation on ASCII strings. -/
def sampleRuntime : Runtime :=
  { toUpperCase := asciiUpper
    trim := asciiTrim
    length := fun s => s.data.length
    generateSwaggerJson := sampleGenerator }

/-- The identifier of the sample project `shop`. -/
def shopId : ObjectId := "64a000000000000000000001"

/-- The identifier of the sample project `blog`. -/
def blogId : ObjectId := "64a000000000000000000002"

/-- A well-formed identifier under which no project is stored. -/
def absentId : ObjectId := "64a000000000000000000009"

/-- The identifier of the sample endpoint `listItems`. -/
def itemsId : ObjectId := "64e000000000000000000001"

/-- The identifier of the sample endpoint `listPosts`. -/
def postsId : ObjectId := "64e000000000000000000002"

/-- A third endpoint identifier. -/
def orderId : ObjectId := "64e000000000000000000003"

/-- The principal who owns `shop`. -/
def alice : ObjectId := "64c000000000000000000001"

/-- The principal who owns `blog`. -/
def bob : ObjectId := "64c000000000000000000002"

/-- A principal who collaborates on `shop`. -/
def carol : ObjectId := "64c000000000000000000003"

/-- A project owned by `alice`, whose only collaborator is `carol`. -/
def shop : Project :=
  { _id := shopId, name := "Shop API", description := "", createdBy := alice,
    teamMembers := [carol], endpoints := [itemsId], createdAt := 1 }

/-- A second project, owned by `bob`. -/
def blog : Project :=
  { _id := blogId, name := "Blog API", description := "posts", createdBy := bob,
    teamMembers := [bob], endpoints := [postsId], createdAt := 2 }

/-- An endpoint of `shop`. -/
def listItems : Endpoint :=
  { _id := itemsId, projectId := shopId, path := "/items", method := "GET", summary := "List items",
    description := "all items", tags := ["default"], parameters := [],
    requestBody := Mixed.null, responses := defaultResponses, security := ["bearerAuth"],
    deprecated := false, createdAt := 3, updatedAt := 3 }

/-- An endpoint of `blog`. -/
def listPosts : Endpoint :=
  { _id := postsId, projectId := blogId, path := "/posts", method := "GET", summary := "List posts",
    description := "", tags := ["default"], parameters := [],
    requestBody := Mixed.null, responses := defaultResponses, security := ["bearerAuth"],
    deprecated := false, createdAt := 4, updatedAt := 4 }

/-- A state with two projects, one endpoint each, and no generated file. -/
def sampleState : State :=
  { projects := [shop, blog], endpoints := [listItems, listPosts], swaggerFiles := [] }

/-- A creation request for `POST /orders` in `shop`. -/
def createOrders : CreateEndpointBody :=
  { projectId := some shopId, path := some "/orders", method := some "post",
    summary := some "Create order", description := none, tags := none, parameters := none,
    requestBody := none, responses := none, security := none, deprecated := none }

/-- An update request that carries nothing but an empty description. -/
def clearDescription : UpdateEndpointBody :=
  { path := none, method := none, summary := none, description := some "", tags := none,
    parameters := none, requestBody := none, responses := none, security := none,
    deprecated := none }

/-- A creation request whose path lacks the leading slash. -/
def createNoSlash : CreateEndpointBody :=
  { createOrders with path := some "orders" }

/-- A creation request whose method is not an HTTP method. -/
def createBadMethod : CreateEndpointBody :=
  { createOrders with method := some "fetch" }

/-- A creation request whose path has a leading blank before the slash. -/
def createPadded : CreateEndpointBody :=
  { createOrders with path := some " /orders" }

/-- A creation request without a summary. -/
def createNoSummary : CreateEndpointBody :=
  { createOrders with summary := none }

/-- A creation request for a project that does not exist. -/
def createInMissingProject : CreateEndpointBody :=
  { createOrders with projectId := some absentId }

/-- An endpoint of `shop` with its own tags, a request body, an API-key
requirement and the deprecation flag set. -/
def createItem : Endpoint :=
  { _id := orderId, projectId := shopId, path := "/items", method := "POST",
    summary := "Create item", description := "", tags := ["items"], parameters := [],
    requestBody := Mixed.obj "item", responses := defaultResponses, security := ["apiKey"],
    deprecated := true, createdAt := 5, updatedAt := 5 }

/-- The sample state with `createItem` stored and referenced by `shop`. -/
def itemState : State :=
  { projects := [{ shop with endpoints := [itemsId, orderId] }, blog],
    endpoints := [listItems, listPosts, createItem], swaggerFiles := [] }

/-- An update request carrying an empty list of tags, an empty list of security
requirements, `null` as request body and `false` as deprecation flag. -/
def clearLists : UpdateEndpointBody :=
  { path := none, method := none, summary := none, description := none, tags := some [],
    parameters := none, requestBody := some Mixed.null, responses := none,
    security := some [], deprecated := some false }

/-! ## States reached by the successful runs, and the predicates of the statements -/

/-- The state reached by a `createEndpoint` that passes all checks. -/
def createdState (rt : Runtime) (now : Nat) (newId pid : ObjectId) (body : CreateEndpointBody)
    (project : Project) (s : State) : State :=
  { projects := Project.save s.projects
      { project with endpoints := project.endpoints ++ [newId] }
    endpoints := s.endpoints ++ [newEndpoint rt now newId body]
    swaggerFiles := saveSwaggerFile s.swaggerFiles pid
      (rt.generateSwaggerJson { project with endpoints := project.endpoints ++ [newId] }
        (Endpoint.find (s.endpoints ++ [newEndpoint rt now newId body]) pid)) }

/-- The state reached by an `updateEndpoint` that passes all checks. -/
def updatedState (rt : Runtime) (now : Nat) (body : UpdateEndpointBody) (endpoint : Endpoint)
    (project : Project) (s : State) : State :=
  { s with
    endpoints := s.endpoints.map
      (fun x => if x._id = endpoint._id then applyEndpointUpdate rt now body endpoint else x)
    swaggerFiles := saveSwaggerFile s.swaggerFiles endpoint.projectId
      (rt.generateSwaggerJson project
        (Endpoint.find
          (s.endpoints.map
            (fun x => if x._id = endpoint._id then applyEndpointUpdate rt now body endpoint
              else x))
          endpoint.projectId)) }

/-- The state reached by a `deleteEndpoint` that passes all checks. -/
def deletedState (rt : Runtime) (id : ObjectId) (endpoint : Endpoint) (project : Project)
    (s : State) : State :=
  { projects := Project.save s.projects
      { project with endpoints := project.endpoints.filter (fun epId => epId != id) }
    endpoints := Endpoint.findByIdAndDelete s.endpoints id
    swaggerFiles := saveSwaggerFile s.swaggerFiles endpoint.projectId
      (rt.generateSwaggerJson
        { project with endpoints := project.endpoints.filter (fun epId => epId != id) }
        (Endpoint.find (Endpoint.findByIdAndDelete s.endpoints id) endpoint.projectId)) }

/-- The artifact of project `pid` is current in state `s`: exactly one file is
stored under `pid`, and it is the generator applied to the stored project and to
the stored endpoints whose `projectId` is `pid`. -/
def ArtifactCurrent (rt : Runtime) (s : State) (pid : ObjectId) : Prop :=
  ∃ project, Project.findById s.projects pid = Lookup.found project
    ∧ s.swaggerFiles.filter (fun f => f.1 == pid)
      = [(pid, rt.generateSwaggerJson project (Endpoint.find s.endpoints pid))]
    ∧ fetchSwaggerFile s.swaggerFiles pid
      = some (rt.generateSwaggerJson project (Endpoint.find s.endpoints pid))

/-- The sample state after an explicit regeneration for project `shopId`. -/
def generatedState : State :=
  (getProjectSwagger sampleRuntime none shopId sampleState).2

/-- A rename request. -/
def renameToStore : UpdateProjectBody :=
  { name := some "Store API", description := none, teamMembers := none }

/-- The list of references of `project` is consistent with the endpoint
collection `es`: it holds exactly the identifiers of the stored endpoints whose
`projectId` is the project. -/
def ListConsistent (project : Project) (es : List Endpoint) : Prop :=
  ∀ eid, eid ∈ project.endpoints ↔ ∃ e ∈ es, e._id = eid ∧ e.projectId = project._id

end SwaggerManager

namespace SwaggerManager

/-! ## Auxiliary facts about the store operations -/

theorem hasAccess_iff (project : Project) (user : ObjectId) :
    hasAccess project user = true ↔ (user = project.createdBy ∨ user ∈ project.teamMembers) := by
  unfold hasAccess
  have hc : project.teamMembers.contains user = true ↔ user ∈ project.teamMembers := by simp
  rw [Bool.or_eq_true, beq_iff_eq, hc]
  constructor
  · rintro (h | h)
    · exact Or.inl h.symm
    · exact Or.inr h
  · rintro (h | h)
    · exact Or.inl h.symm
    · exact Or.inr h

theorem project_findById_found_iff {ps : List Project} {id : String} {p : Project} :
    Project.findById ps id = Lookup.found p ↔
      isObjectId id = true ∧ ps.find? (fun q => q._id == id) = some p := by
  unfold Project.findById
  cases hwf : isObjectId id
  · simp
  · cases hf : ps.find? (fun q => q._id == id) <;> simp

theorem project_findById_notFound_iff {ps : List Project} {id : String} :
    Project.findById ps id = Lookup.notFound ↔
      isObjectId id = true ∧ ps.find? (fun q => q._id == id) = none := by
  unfold Project.findById
  cases hwf : isObjectId id
  · simp
  · cases hf : ps.find? (fun q => q._id == id) <;> simp

theorem endpoint_findById_found_iff {es : List Endpoint} {id : String} {e : Endpoint} :
    Endpoint.findById es id = Lookup.found e ↔
      isObjectId id = true ∧ es.find? (fun x => x._id == id) = some e := by
  unfold Endpoint.findById
  cases hwf : isObjectId id
  · simp
  · cases hf : es.find? (fun x => x._id == id) <;> simp

theorem endpoint_findById_notFound_iff {es : List Endpoint} {id : String} :
    Endpoint.findById es id = Lookup.notFound ↔
      isObjectId id = true ∧ es.find? (fun x => x._id == id) = none := by
  unfold Endpoint.findById
  cases hwf : isObjectId id
  · simp
  · cases hf : es.find? (fun x => x._id == id) <;> simp

theorem project_findById_id {ps : List Project} {id : ObjectId} {p : Project}
    (h : Project.findById ps id = Lookup.found p) : p._id = id := by
  have := List.find?_some (project_findById_found_iff.mp h).2
  simpa using this

theorem endpoint_findById_id {es : List Endpoint} {id : ObjectId} {e : Endpoint}
    (h : Endpoint.findById es id = Lookup.found e) : e._id = id := by
  have := List.find?_some (endpoint_findById_found_iff.mp h).2
  simpa using this

/-! ## Access to the endpoint handlers -/

theorem createEndpoint_status_403_iff (rt : Runtime) (now : Nat) (newId user pid : ObjectId)
    (body : CreateEndpointBody) (s : State) (project : Project)
    (hp : Project.findById s.projects pid = Lookup.found project)
    (hid : body.projectId = some pid) (h1 : truthyStr body.projectId = true)
    (h2 : truthyStr body.path = true) (h3 : truthyStr body.method = true)
    (h4 : truthyStr body.summary = true) :
    (createEndpoint rt now newId user body s).1.status = 403 ↔
      ¬ (user = project.createdBy ∨ user ∈ project.teamMembers) := by
  rw [← hasAccess_iff]
  unfold createEndpoint
  rw [hid] at h1
  simp only [h1, h2, h3, h4, hid, Option.getD_some, hp]
  cases hacc : hasAccess project user
  · simp
  · cases hins : Endpoint.insert rt s.endpoints (newEndpoint rt now newId body) <;> simp

theorem getEndpointsByProject_status_403_iff (user pid : ObjectId) (s : State)
    (project : Project) (hp : Project.findById s.projects pid = Lookup.found project) :
    (getEndpointsByProject user pid s).status = 403 ↔
      ¬ (user = project.createdBy ∨ user ∈ project.teamMembers) := by
  rw [← hasAccess_iff]
  unfold getEndpointsByProject
  simp only [hp]
  cases hacc : hasAccess project user <;> simp

theorem getEndpointById_status_403_iff (user id : ObjectId) (s : State)
    (endpoint : Endpoint) (project : Project)
    (he : Endpoint.findById s.endpoints id = Lookup.found endpoint)
    (hp : Project.findById s.projects endpoint.projectId = Lookup.found project) :
    (getEndpointById user id s).status = 403 ↔
      ¬ (user = project.createdBy ∨ user ∈ project.teamMembers) := by
  rw [← hasAccess_iff]
  unfold getEndpointById
  simp only [he, hp]
  cases hacc : hasAccess project user <;> simp

theorem updateEndpoint_status_403_iff (rt : Runtime) (now : Nat) (user id : ObjectId)
    (body : UpdateEndpointBody) (s : State) (endpoint : Endpoint) (project : Project)
    (he : Endpoint.findById s.endpoints id = Lookup.found endpoint)
    (hp : Project.findById s.projects endpoint.projectId = Lookup.found project) :
    (updateEndpoint rt now user id body s).1.status = 403 ↔
      ¬ (user = project.createdBy ∨ user ∈ project.teamMembers) := by
  rw [← hasAccess_iff]
  unfold updateEndpoint
  simp only [he, hp]
  cases hacc : hasAccess project user
  · simp
  · cases hs : Endpoint.save rt s.endpoints (applyEndpointUpdate rt now body endpoint) <;> simp

theorem deleteEndpoint_status_403_iff (rt : Runtime) (user id : ObjectId) (s : State)
    (endpoint : Endpoint) (project : Project)
    (he : Endpoint.findById s.endpoints id = Lookup.found endpoint)
    (hp : Project.findById s.projects endpoint.projectId = Lookup.found project) :
    (deleteEndpoint rt user id s).1.status = 403 ↔
      ¬ (user = project.createdBy ∨ user ∈ project.teamMembers) := by
  rw [← hasAccess_iff]
  unfold deleteEndpoint
  simp only [he, hp]
  cases hacc : hasAccess project user <;> simp

/-- C1: for an existing project and any principal, each endpoint handler
(`createEndpoint` with all required fields present, `getEndpointsByProject`,
`getEndpointById`, `updateEndpoint`, `deleteEndpoint`) answers 403 exactly when
the principal is neither the project's `createdBy` nor one of its `teamMembers`. -/
theorem endpoint_handlers_denied_iff (rt : Runtime) (now : Nat) (newId user pid id : ObjectId)
    (cbody : CreateEndpointBody) (ubody : UpdateEndpointBody) (s : State)
    (endpoint : Endpoint) (project : Project)
    (hp : Project.findById s.projects pid = Lookup.found project)
    (he : Endpoint.findById s.endpoints id = Lookup.found endpoint)
    (hep : endpoint.projectId = pid)
    (hid : cbody.projectId = some pid) (h1 : truthyStr cbody.projectId = true)
    (h2 : truthyStr cbody.path = true) (h3 : truthyStr cbody.method = true)
    (h4 : truthyStr cbody.summary = true) :
    ((createEndpoint rt now newId user cbody s).1.status = 403 ↔
        ¬ (user = project.createdBy ∨ user ∈ project.teamMembers))
      ∧ ((getEndpointsByProject user pid s).status = 403 ↔
        ¬ (user = project.createdBy ∨ user ∈ project.teamMembers))
      ∧ ((getEndpointById user id s).status = 403 ↔
        ¬ (user = project.createdBy ∨ user ∈ project.teamMembers))
      ∧ ((updateEndpoint rt now user id ubody s).1.status = 403 ↔
        ¬ (user = project.createdBy ∨ user ∈ project.teamMembers))
      ∧ ((deleteEndpoint rt user id s).1.status = 403 ↔
        ¬ (user = project.createdBy ∨ user ∈ project.teamMembers)) := by
  subst hep
  exact ⟨createEndpoint_status_403_iff rt now newId user _ cbody s project hp hid h1 h2 h3 h4,
    getEndpointsByProject_status_403_iff user _ s project hp,
    getEndpointById_status_403_iff user id s endpoint project he hp,
    updateEndpoint_status_403_iff rt now user id ubody s endpoint project he hp,
    deleteEndpoint_status_403_iff rt user id s endpoint project he hp⟩

theorem endpoint_handlers_denied_iff_witness :
    (Project.findById sampleState.projects shopId = Lookup.found shop
      ∧ Endpoint.findById sampleState.endpoints itemsId = Lookup.found listItems
      ∧ listItems.projectId = shopId
      ∧ createOrders.projectId = some shopId
      ∧ truthyStr createOrders.projectId = true ∧ truthyStr createOrders.path = true
      ∧ truthyStr createOrders.method = true ∧ truthyStr createOrders.summary = true)
    ∧ (((createEndpoint sampleRuntime 10 orderId alice createOrders sampleState).1.status = 403 ↔
        ¬ (alice = shop.createdBy ∨ alice ∈ shop.teamMembers))
      ∧ ((getEndpointsByProject alice shopId sampleState).status = 403 ↔
        ¬ (alice = shop.createdBy ∨ alice ∈ shop.teamMembers))
      ∧ ((getEndpointById alice itemsId sampleState).status = 403 ↔
        ¬ (alice = shop.createdBy ∨ alice ∈ shop.teamMembers))
      ∧ ((updateEndpoint sampleRuntime 10 alice itemsId clearDescription sampleState).1.status = 403 ↔
        ¬ (alice = shop.createdBy ∨ alice ∈ shop.teamMembers))
      ∧ ((deleteEndpoint sampleRuntime alice itemsId sampleState).1.status = 403 ↔
        ¬ (alice = shop.createdBy ∨ alice ∈ shop.teamMembers))) :=
  ⟨⟨by decide, by decide, by decide, by decide, by decide, by decide, by decide, by decide⟩,
    endpoint_handlers_denied_iff sampleRuntime 10 orderId alice shopId itemsId createOrders
      clearDescription sampleState listItems shop (by decide) (by decide) (by decide)
      (by decide) (by decide) (by decide) (by decide) (by decide)⟩

/-! ## Ownership on the project handlers -/

/-- C2: on an existing project, `updateProject` and `deleteProject` called by
anyone but the owner (a collaborator included) answer 403 and return the state
as it was, so the project's name, description, `teamMembers` and its endpoints
are unchanged; called by the owner they do not answer 403. -/
theorem project_mutation_owner_only (user id : ObjectId) (body : UpdateProjectBody)
    (s : State) (project : Project)
    (hp : Project.findById s.projects id = Lookup.found project) :
    (user ≠ project.createdBy →
        ((updateProject user id body s).1.status = 403 ∧ (updateProject user id body s).2 = s)
        ∧ ((deleteProject user id s).1.status = 403 ∧ (deleteProject user id s).2 = s))
      ∧ (user = project.createdBy →
        (updateProject user id body s).1.status ≠ 403
        ∧ (deleteProject user id s).1.status ≠ 403) := by
  unfold updateProject deleteProject deleteProjectWrites
  simp only [hp]
  constructor
  · intro hne
    have h : (project.createdBy != user) = true := by
      simpa using fun h => hne h.symm
    simp [h, runWrites]
  · intro heq
    have h : (project.createdBy != user) = false := by
      simpa using heq.symm
    simp [h]

theorem project_mutation_owner_only_witness :
    Project.findById sampleState.projects shopId = Lookup.found shop
    ∧ ((carol ≠ shop.createdBy →
        ((updateProject carol shopId ⟨some "Mine", none, some [carol]⟩ sampleState).1.status = 403
          ∧ (updateProject carol shopId ⟨some "Mine", none, some [carol]⟩ sampleState).2
            = sampleState)
        ∧ ((deleteProject carol shopId sampleState).1.status = 403
          ∧ (deleteProject carol shopId sampleState).2 = sampleState))
      ∧ (carol = shop.createdBy →
        (updateProject carol shopId ⟨some "Mine", none, some [carol]⟩ sampleState).1.status ≠ 403
        ∧ (deleteProject carol shopId sampleState).1.status ≠ 403)) :=
  ⟨by decide, project_mutation_owner_only carol shopId ⟨some "Mine", none, some [carol]⟩
    sampleState shop (by decide)⟩

/-! ## The regeneration handler and outsiders -/

/-- C3: `getProjectSwagger` does not consult the principal.  In the sample state
`bob` is neither the owner of project `shopId` nor one of its collaborators, and the
request still answers 200 with the generated document and writes the file of
`shopId`; the same holds for an anonymous request. -/
theorem getProjectSwagger_serves_outsider :
    ¬ (bob = shop.createdBy ∨ bob ∈ shop.teamMembers)
    ∧ Project.findById sampleState.projects shopId = Lookup.found shop
    ∧ getProjectSwagger sampleRuntime (some bob) shopId sampleState
      = (⟨200, Body.swagger "Shop API GET /items"⟩,
          { sampleState with swaggerFiles := [(shopId, "Shop API GET /items")] })
    ∧ getProjectSwagger sampleRuntime none shopId sampleState
      = (⟨200, Body.swagger "Shop API GET /items"⟩,
          { sampleState with swaggerFiles := [(shopId, "Shop API GET /items")] }) := by
  decide

/-! ## Inversion of the successful runs -/

theorem project_findById_save {ps : List Project} {id : ObjectId} {p p1 : Project}
    (h : Project.findById ps id = Lookup.found p) (hid : p1._id = id) :
    Project.findById (Project.save ps p1) id = Lookup.found p1 := by
  obtain ⟨hwf, hf⟩ := project_findById_found_iff.mp h
  refine project_findById_found_iff.mpr ⟨hwf, ?_⟩
  unfold Project.save
  clear h
  induction ps with
  | nil => simp at hf
  | cons q qs ih =>
    rw [List.find?_cons] at hf
    rw [List.map_cons, List.find?_cons]
    by_cases hq : q._id = id
    · have : q._id = p1._id := by rw [hq, hid]
      simp [this, hid]
    · have hne : ¬ q._id = p1._id := by rw [hid]; exact hq
      have hb : (q._id == id) = false := by simpa using hq
      rw [hb] at hf
      simp only [hne, if_false, hb]
      exact ih hf

theorem fetchSwaggerFile_saveSwaggerFile (files : List (ObjectId × String)) (id : ObjectId)
    (doc : String) : fetchSwaggerFile (saveSwaggerFile files id doc) id = some doc := by
  simp [fetchSwaggerFile, saveSwaggerFile]

theorem endpoint_insert_eq_some {rt : Runtime} {es stored : List Endpoint} {e : Endpoint}
    (h : Endpoint.insert rt es e = some stored) :
    e.validate rt = true ∧ Endpoint.findById es e._id = Lookup.notFound
      ∧ stored = es ++ [e] := by
  unfold Endpoint.insert at h
  split at h
  · next hc =>
    simp only [Bool.and_eq_true, decide_eq_true_eq] at hc
    simp only [Option.some.injEq] at h
    exact ⟨hc.1, hc.2, h.symm⟩
  · simp at h

theorem endpoint_save_eq_some {rt : Runtime} {es stored : List Endpoint} {e : Endpoint}
    (h : Endpoint.save rt es e = some stored) :
    e.validate rt = true ∧ stored = es.map (fun x => if x._id = e._id then e else x) := by
  unfold Endpoint.save at h
  split at h
  · next hc =>
    simp only [Option.some.injEq] at h
    exact ⟨hc, h.symm⟩
  · simp at h


theorem createEndpoint_of_checks {rt : Runtime} {now : Nat} {newId user pid : ObjectId}
    {body : CreateEndpointBody} {s : State} {project : Project}
    (h1 : truthyStr body.projectId = true) (h2 : truthyStr body.path = true)
    (h3 : truthyStr body.method = true) (h4 : truthyStr body.summary = true)
    (hpid : body.projectId = some pid)
    (hp : Project.findById s.projects pid = Lookup.found project)
    (hacc : hasAccess project user = true)
    (hv : (newEndpoint rt now newId body).validate rt = true)
    (hf : Endpoint.findById s.endpoints newId = Lookup.notFound) :
    createEndpoint rt now newId user body s =
      (⟨201, .created newId (newEndpoint rt now newId body).path
          (newEndpoint rt now newId body).method (newEndpoint rt now newId body).summary
          (newEndpoint rt now newId body).tags⟩,
        createdState rt now newId pid body project s) := by
  have hid : (newEndpoint rt now newId body)._id = newId := rfl
  have hins : Endpoint.insert rt s.endpoints (newEndpoint rt now newId body)
      = some (s.endpoints ++ [newEndpoint rt now newId body]) := by
    simp [Endpoint.insert, hv, hid, hf]
  have h1s : truthyStr (some pid) = true := hpid ▸ h1
  unfold createEndpoint
  simp only [h1s, h2, h3, h4, hpid, Option.getD_some, hp, hacc, hins, hid]
  rfl

theorem createEndpoint_created {rt : Runtime} {now : Nat} {newId user : ObjectId}
    {body : CreateEndpointBody} {s : State}
    (h : (createEndpoint rt now newId user body s).1.status = 201) :
    ∃ pid project, body.projectId = some pid
      ∧ Project.findById s.projects pid = Lookup.found project
      ∧ hasAccess project user = true
      ∧ (newEndpoint rt now newId body).validate rt = true
      ∧ Endpoint.findById s.endpoints newId = Lookup.notFound
      ∧ (createEndpoint rt now newId user body s).2
        = createdState rt now newId pid body project s := by
  cases h1 : truthyStr body.projectId
  · simp [createEndpoint, h1] at h
  cases h2 : truthyStr body.path
  · simp [createEndpoint, h2] at h
  cases h3 : truthyStr body.method
  · simp [createEndpoint, h3] at h
  cases h4 : truthyStr body.summary
  · simp [createEndpoint, h4] at h
  cases hpid : body.projectId with
  | none => simp [hpid, truthyStr] at h1
  | some pid =>
    have h1s : truthyStr (some pid) = true := hpid ▸ h1
    cases hp : Project.findById s.projects pid with
    | castError => simp [createEndpoint, h1s, h2, h3, h4, hpid, hp] at h
    | notFound => simp [createEndpoint, h1s, h2, h3, h4, hpid, hp] at h
    | found project =>
      cases hacc : hasAccess project user with
      | false => simp [createEndpoint, h1s, h2, h3, h4, hpid, hp, hacc] at h
      | true =>
        cases hins : Endpoint.insert rt s.endpoints (newEndpoint rt now newId body) with
        | none => simp [createEndpoint, h1s, h2, h3, h4, hpid, hp, hacc, hins] at h
        | some stored =>
          obtain ⟨hv, hf, -⟩ := endpoint_insert_eq_some hins
          refine ⟨pid, project, rfl, hp, hacc, hv, hf, ?_⟩
          rw [createEndpoint_of_checks h1 h2 h3 h4 hpid hp hacc hv hf]


theorem updateEndpoint_of_checks {rt : Runtime} {now : Nat} {user id : ObjectId}
    {body : UpdateEndpointBody} {s : State} {endpoint : Endpoint} {project : Project}
    (he : Endpoint.findById s.endpoints id = Lookup.found endpoint)
    (hp : Project.findById s.projects endpoint.projectId = Lookup.found project)
    (hacc : hasAccess project user = true)
    (hv : (applyEndpointUpdate rt now body endpoint).validate rt = true) :
    updateEndpoint rt now user id body s =
      (⟨200, .endpoint (applyEndpointUpdate rt now body endpoint)⟩,
        updatedState rt now body endpoint project s) := by
  have hsave : Endpoint.save rt s.endpoints (applyEndpointUpdate rt now body endpoint)
      = some (s.endpoints.map
        (fun x => if x._id = endpoint._id then applyEndpointUpdate rt now body endpoint
          else x)) := by
    have hid : (applyEndpointUpdate rt now body endpoint)._id = endpoint._id := rfl
    simp only [Endpoint.save, hv, hid, if_true]
  unfold updateEndpoint
  simp only [he, hp, hacc, hsave]
  rfl

theorem updateEndpoint_ok {rt : Runtime} {now : Nat} {user id : ObjectId}
    {body : UpdateEndpointBody} {s : State}
    (h : (updateEndpoint rt now user id body s).1.status = 200) :
    ∃ endpoint project, Endpoint.findById s.endpoints id = Lookup.found endpoint
      ∧ Project.findById s.projects endpoint.projectId = Lookup.found project
      ∧ hasAccess project user = true
      ∧ (applyEndpointUpdate rt now body endpoint).validate rt = true
      ∧ updateEndpoint rt now user id body s =
        (⟨200, .endpoint (applyEndpointUpdate rt now body endpoint)⟩,
          updatedState rt now body endpoint project s) := by
  cases he : Endpoint.findById s.endpoints id with
  | castError => simp [updateEndpoint, he] at h
  | notFound => simp [updateEndpoint, he] at h
  | found endpoint =>
    cases hp : Project.findById s.projects endpoint.projectId with
    | castError => simp [updateEndpoint, he, hp] at h
    | notFound => simp [updateEndpoint, he, hp] at h
    | found project =>
      cases hacc : hasAccess project user with
      | false => simp [updateEndpoint, he, hp, hacc] at h
      | true =>
        cases hs : Endpoint.save rt s.endpoints (applyEndpointUpdate rt now body endpoint) with
        | none => simp [updateEndpoint, he, hp, hacc, hs] at h
        | some stored =>
          have hv := (endpoint_save_eq_some hs).1
          exact ⟨endpoint, project, rfl, hp, hacc, hv, updateEndpoint_of_checks he hp hacc hv⟩


theorem deleteEndpoint_of_checks {rt : Runtime} {user id : ObjectId} {s : State}
    {endpoint : Endpoint} {project : Project}
    (he : Endpoint.findById s.endpoints id = Lookup.found endpoint)
    (hp : Project.findById s.projects endpoint.projectId = Lookup.found project)
    (hacc : hasAccess project user = true) :
    deleteEndpoint rt user id s =
      (⟨200, .message "Endpoint deleted successfully"⟩,
        deletedState rt id endpoint project s) := by
  unfold deleteEndpoint
  simp only [he, hp, hacc]
  rfl

theorem deleteEndpoint_ok {rt : Runtime} {user id : ObjectId} {s : State}
    (h : (deleteEndpoint rt user id s).1.status = 200) :
    ∃ endpoint project, Endpoint.findById s.endpoints id = Lookup.found endpoint
      ∧ Project.findById s.projects endpoint.projectId = Lookup.found project
      ∧ hasAccess project user = true
      ∧ deleteEndpoint rt user id s =
        (⟨200, .message "Endpoint deleted successfully"⟩,
          deletedState rt id endpoint project s) := by
  cases he : Endpoint.findById s.endpoints id with
  | castError => simp [deleteEndpoint, he] at h
  | notFound => simp [deleteEndpoint, he] at h
  | found endpoint =>
    cases hp : Project.findById s.projects endpoint.projectId with
    | castError => simp [deleteEndpoint, he, hp] at h
    | notFound => simp [deleteEndpoint, he, hp] at h
    | found project =>
      cases hacc : hasAccess project user with
      | false => simp [deleteEndpoint, he, hp, hacc] at h
      | true => exact ⟨endpoint, project, rfl, hp, hacc, deleteEndpoint_of_checks he hp hacc⟩

/-! ## The artifact after an endpoint mutation -/


theorem filter_saveSwaggerFile (files : List (ObjectId × String)) (id : ObjectId)
    (doc : String) :
    (saveSwaggerFile files id doc).filter (fun f => f.1 == id) = [(id, doc)] := by
  simp [saveSwaggerFile, List.filter_cons, List.filter_filter]

theorem artifactCurrent_of_save {rt : Runtime} {s : State} {pid : ObjectId}
    (project : Project) (files : List (ObjectId × String))
    (hp : Project.findById s.projects pid = Lookup.found project)
    (hf : s.swaggerFiles = saveSwaggerFile files pid
      (rt.generateSwaggerJson project (Endpoint.find s.endpoints pid))) :
    ArtifactCurrent rt s pid := by
  refine ⟨project, hp, ?_, ?_⟩
  · rw [hf, filter_saveSwaggerFile]
  · rw [hf, fetchSwaggerFile_saveSwaggerFile]

theorem endpoint_mem_of_findById {es : List Endpoint} {id : ObjectId} {e : Endpoint}
    (h : Endpoint.findById es id = Lookup.found e) : e ∈ es :=
  List.mem_of_find?_eq_some (endpoint_findById_found_iff.mp h).2

theorem endpoint_mem_find_iff {es : List Endpoint} {pid : ObjectId} {e : Endpoint} :
    e ∈ Endpoint.find es pid ↔ e ∈ es ∧ e.projectId = pid := by
  simp [Endpoint.find]

theorem createdState_artifactCurrent {rt : Runtime} {now : Nat} {newId pid : ObjectId}
    {body : CreateEndpointBody} {project : Project} {s : State}
    (hp : Project.findById s.projects pid = Lookup.found project) :
    ArtifactCurrent rt (createdState rt now newId pid body project s) pid :=
  artifactCurrent_of_save { project with endpoints := project.endpoints ++ [newId] }
    s.swaggerFiles (project_findById_save hp (project_findById_id (p := project) hp)) rfl

theorem updatedState_artifactCurrent {rt : Runtime} {now : Nat} {body : UpdateEndpointBody}
    {endpoint : Endpoint} {project : Project} {s : State}
    (hp : Project.findById s.projects endpoint.projectId = Lookup.found project) :
    ArtifactCurrent rt (updatedState rt now body endpoint project s) endpoint.projectId :=
  artifactCurrent_of_save project s.swaggerFiles hp rfl

theorem deletedState_artifactCurrent {rt : Runtime} {id : ObjectId} {endpoint : Endpoint}
    {project : Project} {s : State}
    (hp : Project.findById s.projects endpoint.projectId = Lookup.found project) :
    ArtifactCurrent rt (deletedState rt id endpoint project s) endpoint.projectId :=
  artifactCurrent_of_save
    { project with endpoints := project.endpoints.filter (fun epId => epId != id) }
    s.swaggerFiles (project_findById_save hp (project_findById_id (p := project) hp)) rfl

/-- C4: after a successful `createEndpoint` (201), `updateEndpoint` (200) or
`deleteEndpoint` (200) the only file stored under the affected project's
identifier is the generator applied to the stored project and to the stored
endpoints of that project as they are after the mutation; these include the
created endpoint, include the updated endpoint in its new form, and contain no
endpoint with the deleted identifier. -/
theorem artifact_current_after_endpoint_mutation (rt : Runtime) (now : Nat)
    (newId user id : ObjectId) (cbody : CreateEndpointBody) (ubody : UpdateEndpointBody)
    (s : State) :
    ((createEndpoint rt now newId user cbody s).1.status = 201 →
        ∃ pid, cbody.projectId = some pid
          ∧ ArtifactCurrent rt (createEndpoint rt now newId user cbody s).2 pid
          ∧ newEndpoint rt now newId cbody
            ∈ Endpoint.find (createEndpoint rt now newId user cbody s).2.endpoints pid)
      ∧ ((updateEndpoint rt now user id ubody s).1.status = 200 →
        ∃ endpoint, Endpoint.findById s.endpoints id = Lookup.found endpoint
          ∧ ArtifactCurrent rt (updateEndpoint rt now user id ubody s).2 endpoint.projectId
          ∧ applyEndpointUpdate rt now ubody endpoint
            ∈ Endpoint.find (updateEndpoint rt now user id ubody s).2.endpoints
              endpoint.projectId)
      ∧ ((deleteEndpoint rt user id s).1.status = 200 →
        ∃ endpoint, Endpoint.findById s.endpoints id = Lookup.found endpoint
          ∧ ArtifactCurrent rt (deleteEndpoint rt user id s).2 endpoint.projectId
          ∧ ∀ e ∈ Endpoint.find (deleteEndpoint rt user id s).2.endpoints endpoint.projectId,
            e._id ≠ id) := by
  refine ⟨fun h => ?_, fun h => ?_, fun h => ?_⟩
  · obtain ⟨pid, project, hpid, hp, -, -, -, hst⟩ := createEndpoint_created h
    refine ⟨pid, hpid, ?_, ?_⟩
    · rw [hst]; exact createdState_artifactCurrent hp
    · rw [hst, endpoint_mem_find_iff]
      refine ⟨?_, ?_⟩
      · simp [createdState]
      · simp [newEndpoint, hpid]
  · obtain ⟨endpoint, project, he, hp, -, -, hst⟩ := updateEndpoint_ok h
    refine ⟨endpoint, he, ?_, ?_⟩
    · rw [hst]; exact updatedState_artifactCurrent hp
    · rw [hst, endpoint_mem_find_iff]
      refine ⟨?_, rfl⟩
      show applyEndpointUpdate rt now ubody endpoint ∈ s.endpoints.map _
      rw [List.mem_map]
      exact ⟨endpoint, endpoint_mem_of_findById he, by simp⟩
  · obtain ⟨endpoint, project, he, hp, -, hst⟩ := deleteEndpoint_ok h
    refine ⟨endpoint, he, ?_, ?_⟩
    · rw [hst]; exact deletedState_artifactCurrent hp
    · intro e hmem
      rw [hst, endpoint_mem_find_iff] at hmem
      have h1 : e ∈ Endpoint.findByIdAndDelete s.endpoints id := hmem.1
      simp only [Endpoint.findByIdAndDelete, List.mem_filter, bne_iff_ne] at h1
      exact h1.2

theorem artifact_current_after_endpoint_mutation_witness :
    ((createEndpoint sampleRuntime 10 orderId carol createOrders sampleState).1.status = 201
      ∧ (updateEndpoint sampleRuntime 10 alice itemsId clearDescription sampleState).1.status = 200
      ∧ (deleteEndpoint sampleRuntime carol itemsId sampleState).1.status = 200)
    ∧ ((∃ pid, createOrders.projectId = some pid
          ∧ ArtifactCurrent sampleRuntime
            (createEndpoint sampleRuntime 10 orderId carol createOrders sampleState).2 pid
          ∧ newEndpoint sampleRuntime 10 orderId createOrders
            ∈ Endpoint.find
              (createEndpoint sampleRuntime 10 orderId carol createOrders sampleState).2.endpoints
              pid)
      ∧ (∃ endpoint, Endpoint.findById sampleState.endpoints itemsId = Lookup.found endpoint
          ∧ ArtifactCurrent sampleRuntime
            (updateEndpoint sampleRuntime 10 alice itemsId clearDescription sampleState).2
            endpoint.projectId
          ∧ applyEndpointUpdate sampleRuntime 10 clearDescription endpoint
            ∈ Endpoint.find
              (updateEndpoint sampleRuntime 10 alice itemsId clearDescription sampleState).2.endpoints
              endpoint.projectId)
      ∧ (∃ endpoint, Endpoint.findById sampleState.endpoints itemsId = Lookup.found endpoint
          ∧ ArtifactCurrent sampleRuntime (deleteEndpoint sampleRuntime carol itemsId sampleState).2
            endpoint.projectId
          ∧ ∀ e ∈ Endpoint.find (deleteEndpoint sampleRuntime carol itemsId sampleState).2.endpoints
              endpoint.projectId,
            e._id ≠ itemsId)) :=
  have h := artifact_current_after_endpoint_mutation sampleRuntime 10 orderId carol itemsId
    createOrders clearDescription sampleState
  have hu := artifact_current_after_endpoint_mutation sampleRuntime 10 orderId alice itemsId
    createOrders clearDescription sampleState
  ⟨⟨by decide, by decide, by decide⟩, h.1 (by decide), hu.2.1 (by decide), h.2.2 (by decide)⟩

/-! ## `updateProject` and the artifact -/



/-- C5 (as stated, refuted): the owner renames project `shopId`, whose file was
generated before.  The update succeeds, the stored project carries the new name,
and the file under `shopId` is still the document generated for the old name, not
the generator applied to the updated project. -/
theorem updateProject_leaves_artifact_stale :
    (updateProject alice shopId renameToStore generatedState).1.status = 200
    ∧ Project.findById (updateProject alice shopId renameToStore generatedState).2.projects shopId
      = Lookup.found { shop with name := "Store API" }
    ∧ fetchSwaggerFile (updateProject alice shopId renameToStore generatedState).2.swaggerFiles shopId
      = some "Shop API GET /items"
    ∧ sampleRuntime.generateSwaggerJson { shop with name := "Store API" }
        (Endpoint.find (updateProject alice shopId renameToStore generatedState).2.endpoints shopId)
      = "Store API GET /items"
    ∧ ¬ ArtifactCurrent sampleRuntime (updateProject alice shopId renameToStore generatedState).2
        shopId := by
  refine ⟨by decide, by decide, by decide, by decide, ?_⟩
  rintro ⟨project, hp, -, hf⟩
  have hp1 : Project.findById (updateProject alice shopId renameToStore generatedState).2.projects
      shopId = Lookup.found { shop with name := "Store API" } := by decide
  rw [hp1] at hp
  cases hp
  revert hf
  decide

/-- C5 (amended): `updateProject` never writes a generated file; whatever is
stored under a project identifier before the call is stored there after it. -/
theorem updateProject_keeps_artifacts (user id : ObjectId) (body : UpdateProjectBody)
    (s : State) (pid : ObjectId) :
    (updateProject user id body s).2.swaggerFiles = s.swaggerFiles
    ∧ fetchSwaggerFile (updateProject user id body s).2.swaggerFiles pid
      = fetchSwaggerFile s.swaggerFiles pid := by
  have h : (updateProject user id body s).2.swaggerFiles = s.swaggerFiles := by
    unfold updateProject
    cases Project.findById s.projects id with
    | castError => rfl
    | notFound => rfl
    | found project =>
      simp only
      split <;> rfl
  exact ⟨h, by rw [h]⟩

/-! ## The denormalised list of endpoint references -/


theorem endpoint_findById_eq_none {es : List Endpoint} {id : ObjectId} :
    Endpoint.findById es id = Lookup.notFound ↔
      isObjectId id = true ∧ ∀ e ∈ es, e._id ≠ id := by
  rw [endpoint_findById_notFound_iff]
  simp

theorem endpoint_findById_append_new {es : List Endpoint} {e : Endpoint}
    (h : Endpoint.findById es e._id = Lookup.notFound) :
    Endpoint.findById (es ++ [e]) e._id = Lookup.found e := by
  obtain ⟨hwf, hf⟩ := endpoint_findById_notFound_iff.mp h
  refine endpoint_findById_found_iff.mpr ⟨hwf, ?_⟩
  rw [List.find?_append, hf]
  simp

theorem endpoint_findById_findByIdAndDelete (es : List Endpoint) (id : ObjectId) :
    ∀ e ∈ Endpoint.findByIdAndDelete es id, e._id ≠ id := by
  intro e he
  simp only [Endpoint.findByIdAndDelete, List.mem_filter, bne_iff_ne] at he
  exact he.2

/-- C6: for a project whose list of references is consistent with the endpoint
collection, a successful `createEndpoint` leaves the list equal to the old list
with the new identifier appended and the new endpoint stored, and a successful
`deleteEndpoint` leaves the list equal to the old list without the deleted
identifier (other entries in their order) and no endpoint with that identifier
stored; in both cases the list is consistent again. -/
theorem endpoint_list_consistency_preserved (rt : Runtime) (now : Nat)
    (newId user id pid : ObjectId) (cbody : CreateEndpointBody) (s : State)
    (project : Project)
    (hp : Project.findById s.projects pid = Lookup.found project)
    (hinv : ListConsistent project s.endpoints) :
    (cbody.projectId = some pid →
      (createEndpoint rt now newId user cbody s).1.status = 201 →
        ∃ project1,
          Project.findById (createEndpoint rt now newId user cbody s).2.projects pid
            = Lookup.found project1
          ∧ project1.endpoints = project.endpoints ++ [newId]
          ∧ Endpoint.findById (createEndpoint rt now newId user cbody s).2.endpoints newId
            = Lookup.found (newEndpoint rt now newId cbody)
          ∧ (newEndpoint rt now newId cbody).projectId = pid
          ∧ ListConsistent project1 (createEndpoint rt now newId user cbody s).2.endpoints)
    ∧ (∀ endpoint, Endpoint.findById s.endpoints id = Lookup.found endpoint →
      endpoint.projectId = pid →
      (deleteEndpoint rt user id s).1.status = 200 →
        ∃ project1,
          Project.findById (deleteEndpoint rt user id s).2.projects pid = Lookup.found project1
          ∧ project1.endpoints = project.endpoints.filter (fun epId => epId != id)
          ∧ id ∉ project1.endpoints
          ∧ (∀ e ∈ (deleteEndpoint rt user id s).2.endpoints, e._id ≠ id)
          ∧ ListConsistent project1 (deleteEndpoint rt user id s).2.endpoints) := by
  have hpid : project._id = pid := project_findById_id hp
  constructor
  · intro hbody h
    obtain ⟨pid1, project0, hpid1, hp0, -, -, hfresh, hst⟩ := createEndpoint_created h
    rw [hbody] at hpid1
    cases hpid1
    rw [hp] at hp0
    cases hp0
    rw [hst]
    refine ⟨{ project with endpoints := project.endpoints ++ [newId] },
      project_findById_save hp hpid, rfl, ?_, ?_, ?_⟩
    · exact endpoint_findById_append_new (e := newEndpoint rt now newId cbody) hfresh
    · simp [newEndpoint, hbody]
    · intro eid
      have hnp : (newEndpoint rt now newId cbody).projectId = project._id := by
        simp [newEndpoint, hbody, hpid]
      show eid ∈ project.endpoints ++ [newId] ↔
        ∃ e ∈ s.endpoints ++ [newEndpoint rt now newId cbody],
          e._id = eid ∧ e.projectId = project._id
      rw [List.mem_append, hinv eid]
      constructor
      · rintro (⟨e, he, h1, h2⟩ | hnew)
        · exact ⟨e, List.mem_append_left _ he, h1, h2⟩
        · refine ⟨newEndpoint rt now newId cbody, by simp, ?_, hnp⟩
          simp only [List.mem_singleton] at hnew
          rw [hnew]; rfl
      · rintro ⟨e, he, h1, h2⟩
        rw [List.mem_append] at he
        rcases he with he | he
        · exact Or.inl ⟨e, he, h1, h2⟩
        · simp only [List.mem_singleton] at he
          subst he
          right
          simp only [List.mem_singleton]
          rw [← h1]; rfl
  · intro endpoint he hep h
    obtain ⟨endpoint0, project0, he0, hp0, -, hst⟩ := deleteEndpoint_ok h
    rw [he] at he0
    cases he0
    rw [hep, hp] at hp0
    cases hp0
    rw [hst]
    refine ⟨{ project with endpoints := project.endpoints.filter (fun epId => epId != id) },
      ?_, rfl, ?_, ?_, ?_⟩
    · show Project.findById (Project.save s.projects _) pid = Lookup.found _
      exact project_findById_save hp hpid
    · simp
    · exact endpoint_findById_findByIdAndDelete s.endpoints id
    · intro eid
      show eid ∈ project.endpoints.filter (fun epId => epId != id) ↔
        ∃ e ∈ Endpoint.findByIdAndDelete s.endpoints id, e._id = eid ∧ e.projectId = project._id
      simp only [List.mem_filter, bne_iff_ne, ne_eq, decide_not, Bool.not_eq_true',
        decide_eq_false_iff_not, Endpoint.findByIdAndDelete, hinv eid]
      constructor
      · rintro ⟨⟨e, he1, h1, h2⟩, hne⟩
        exact ⟨e, ⟨he1, by rw [h1]; exact hne⟩, h1, h2⟩
      · rintro ⟨e, ⟨he1, hne⟩, h1, h2⟩
        exact ⟨⟨e, he1, h1, h2⟩, by rw [← h1]; exact hne⟩

theorem shop_listConsistent : ListConsistent shop sampleState.endpoints := by
  intro eid
  constructor
  · intro h
    have h1 : eid = itemsId := by simpa [shop] using h
    subst h1
    exact ⟨listItems, by simp [sampleState], rfl, rfl⟩
  · rintro ⟨e, he, h1, h2⟩
    have he1 : e = listItems ∨ e = listPosts := by simpa [sampleState] using he
    rcases he1 with he1 | he1
    · subst he1
      rw [← h1]
      decide
    · subst he1
      exact absurd h2 (by decide)

theorem endpoint_list_consistency_preserved_witness :
    (Project.findById sampleState.projects shopId = Lookup.found shop
      ∧ ListConsistent shop sampleState.endpoints
      ∧ createOrders.projectId = some shopId
      ∧ (createEndpoint sampleRuntime 10 orderId carol createOrders sampleState).1.status = 201
      ∧ Endpoint.findById sampleState.endpoints itemsId = Lookup.found listItems
      ∧ listItems.projectId = shopId
      ∧ (deleteEndpoint sampleRuntime carol itemsId sampleState).1.status = 200)
    ∧ (∃ project1,
        Project.findById
            (createEndpoint sampleRuntime 10 orderId carol createOrders sampleState).2.projects shopId
          = Lookup.found project1
        ∧ project1.endpoints = shop.endpoints ++ [orderId]
        ∧ Endpoint.findById
            (createEndpoint sampleRuntime 10 orderId carol createOrders sampleState).2.endpoints orderId
          = Lookup.found (newEndpoint sampleRuntime 10 orderId createOrders)
        ∧ (newEndpoint sampleRuntime 10 orderId createOrders).projectId = shopId
        ∧ ListConsistent project1
          (createEndpoint sampleRuntime 10 orderId carol createOrders sampleState).2.endpoints)
    ∧ (∃ project1,
        Project.findById (deleteEndpoint sampleRuntime carol itemsId sampleState).2.projects shopId
          = Lookup.found project1
        ∧ project1.endpoints = shop.endpoints.filter (fun epId => epId != itemsId)
        ∧ itemsId ∉ project1.endpoints
        ∧ (∀ e ∈ (deleteEndpoint sampleRuntime carol itemsId sampleState).2.endpoints, e._id ≠ itemsId)
        ∧ ListConsistent project1
          (deleteEndpoint sampleRuntime carol itemsId sampleState).2.endpoints) :=
  have h := endpoint_list_consistency_preserved sampleRuntime 10 orderId carol itemsId shopId
    createOrders sampleState shop (by decide) shop_listConsistent
  ⟨⟨by decide, shop_listConsistent, by decide, by decide, by decide, by decide, by decide⟩,
    h.1 (by decide) (by decide), h.2 listItems (by decide) (by decide) (by decide)⟩

/-! ## Partial updates -/

theorem endpoint_findById_replace {es : List Endpoint} {id : ObjectId} {e : Endpoint}
    (e1 : Endpoint) (h : Endpoint.findById es id = Lookup.found e) (hid : e1._id = id) :
    Endpoint.findById (es.map (fun x => if x._id = e1._id then e1 else x)) id
      = Lookup.found e1 := by
  obtain ⟨hwf, hf⟩ := endpoint_findById_found_iff.mp h
  refine endpoint_findById_found_iff.mpr ⟨hwf, ?_⟩
  clear h
  induction es with
  | nil => simp at hf
  | cons q qs ih =>
    rw [List.find?_cons] at hf
    rw [List.map_cons, List.find?_cons]
    by_cases hq : q._id = id
    · have : q._id = e1._id := by rw [hq, hid]
      simp [this, hid]
    · have hne : ¬ q._id = e1._id := by rw [hid]; exact hq
      have hb : (q._id == id) = false := by simpa using hq
      rw [hb] at hf
      simp only [hne, if_false, hb]
      exact ih hf

theorem updateProject_ok {user id : ObjectId} {body : UpdateProjectBody} {s : State}
    (h : (updateProject user id body s).1.status = 200) :
    ∃ project, Project.findById s.projects id = Lookup.found project
      ∧ project.createdBy = user
      ∧ (updateProject user id body s).2
        = { s with projects := Project.save s.projects (applyProjectUpdate body project) } := by
  cases hp : Project.findById s.projects id with
  | castError => simp [updateProject, hp] at h
  | notFound => simp [updateProject, hp] at h
  | found project =>
    by_cases ho : project.createdBy = user
    · refine ⟨project, rfl, ho, ?_⟩
      simp [updateProject, hp, ho]
    · simp [updateProject, hp, ho] at h

/-- C7: `updateEndpoint` and `updateProject` are field-level partial updates.
After a successful update the stored record has, for every field omitted from
the request, the value it had before; the endpoint's `_id`, `projectId` and
`createdAt` and the project's `_id`, `createdBy`, `endpoints` and `createdAt`
are unchanged; and a description supplied as the empty string is stored as the
empty string. -/
theorem partial_update_frame (rt : Runtime) (now : Nat) (user id : ObjectId)
    (ubody : UpdateEndpointBody) (pbody : UpdateProjectBody) (s : State) :
    ((updateEndpoint rt now user id ubody s).1.status = 200 →
        ∃ endpoint endpoint1, Endpoint.findById s.endpoints id = Lookup.found endpoint
          ∧ Endpoint.findById (updateEndpoint rt now user id ubody s).2.endpoints id
            = Lookup.found endpoint1
          ∧ endpoint1._id = endpoint._id ∧ endpoint1.projectId = endpoint.projectId
          ∧ endpoint1.createdAt = endpoint.createdAt
          ∧ (ubody.path = none → endpoint1.path = endpoint.path)
          ∧ (ubody.method = none → endpoint1.method = endpoint.method)
          ∧ (ubody.summary = none → endpoint1.summary = endpoint.summary)
          ∧ (ubody.description = none → endpoint1.description = endpoint.description)
          ∧ (ubody.tags = none → endpoint1.tags = endpoint.tags)
          ∧ (ubody.parameters = none → endpoint1.parameters = endpoint.parameters)
          ∧ (ubody.requestBody = none → endpoint1.requestBody = endpoint.requestBody)
          ∧ (ubody.responses = none → endpoint1.responses = endpoint.responses)
          ∧ (ubody.security = none → endpoint1.security = endpoint.security)
          ∧ (ubody.deprecated = none → endpoint1.deprecated = endpoint.deprecated)
          ∧ (ubody.description = some "" → endpoint1.description = ""))
      ∧ ((updateProject user id pbody s).1.status = 200 →
        ∃ project project1, Project.findById s.projects id = Lookup.found project
          ∧ Project.findById (updateProject user id pbody s).2.projects id = Lookup.found project1
          ∧ (updateProject user id pbody s).2.endpoints = s.endpoints
          ∧ project1._id = project._id ∧ project1.createdBy = project.createdBy
          ∧ project1.endpoints = project.endpoints ∧ project1.createdAt = project.createdAt
          ∧ (pbody.name = none → project1.name = project.name)
          ∧ (pbody.description = none → project1.description = project.description)
          ∧ (pbody.teamMembers = none → project1.teamMembers = project.teamMembers)
          ∧ (pbody.description = some "" → project1.description = "")) := by
  constructor
  · intro h
    obtain ⟨endpoint, project, he, -, -, -, hst⟩ := updateEndpoint_ok h
    refine ⟨endpoint, applyEndpointUpdate rt now ubody endpoint, he, ?_, rfl, rfl, rfl,
      ?_, ?_, ?_, ?_, ?_, ?_, ?_, ?_, ?_, ?_, ?_⟩
    · rw [hst]
      exact endpoint_findById_replace (applyEndpointUpdate rt now ubody endpoint) he
        (endpoint_findById_id (e := endpoint) he)
    all_goals
      intro hf
      simp [applyEndpointUpdate, hf, truthyStr, truthyArr, truthyMixed]
  · intro h
    obtain ⟨project, hp, -, hst⟩ := updateProject_ok h
    refine ⟨project, applyProjectUpdate pbody project, hp, ?_, ?_, rfl, rfl, rfl, rfl,
      ?_, ?_, ?_, ?_⟩
    · rw [hst]
      exact project_findById_save hp (project_findById_id (p := project) hp)
    · rw [hst]
    all_goals
      intro hf
      simp [applyProjectUpdate, hf, truthyStr, truthyArr]

theorem partial_update_frame_witness :
    ((updateEndpoint sampleRuntime 10 carol itemsId clearDescription sampleState).1.status = 200
      ∧ (updateProject alice shopId renameToStore sampleState).1.status = 200)
    ∧ (∃ endpoint endpoint1, Endpoint.findById sampleState.endpoints itemsId = Lookup.found endpoint
        ∧ Endpoint.findById
            (updateEndpoint sampleRuntime 10 carol itemsId clearDescription sampleState).2.endpoints
            itemsId = Lookup.found endpoint1
        ∧ endpoint1._id = endpoint._id ∧ endpoint1.projectId = endpoint.projectId
        ∧ endpoint1.createdAt = endpoint.createdAt
        ∧ (clearDescription.path = none → endpoint1.path = endpoint.path)
        ∧ (clearDescription.method = none → endpoint1.method = endpoint.method)
        ∧ (clearDescription.summary = none → endpoint1.summary = endpoint.summary)
        ∧ (clearDescription.description = none → endpoint1.description = endpoint.description)
        ∧ (clearDescription.tags = none → endpoint1.tags = endpoint.tags)
        ∧ (clearDescription.parameters = none → endpoint1.parameters = endpoint.parameters)
        ∧ (clearDescription.requestBody = none → endpoint1.requestBody = endpoint.requestBody)
        ∧ (clearDescription.responses = none → endpoint1.responses = endpoint.responses)
        ∧ (clearDescription.security = none → endpoint1.security = endpoint.security)
        ∧ (clearDescription.deprecated = none → endpoint1.deprecated = endpoint.deprecated)
        ∧ (clearDescription.description = some "" → endpoint1.description = ""))
    ∧ (∃ project project1, Project.findById sampleState.projects shopId = Lookup.found project
        ∧ Project.findById (updateProject alice shopId renameToStore sampleState).2.projects shopId
          = Lookup.found project1
        ∧ (updateProject alice shopId renameToStore sampleState).2.endpoints
          = sampleState.endpoints
        ∧ project1._id = project._id ∧ project1.createdBy = project.createdBy
        ∧ project1.endpoints = project.endpoints ∧ project1.createdAt = project.createdAt
        ∧ (renameToStore.name = none → project1.name = project.name)
        ∧ (renameToStore.description = none → project1.description = project.description)
        ∧ (renameToStore.teamMembers = none → project1.teamMembers = project.teamMembers)
        ∧ (renameToStore.description = some "" → project1.description = "")) :=
  have h := partial_update_frame sampleRuntime 10 carol itemsId clearDescription renameToStore
    sampleState
  have hp := partial_update_frame sampleRuntime 10 alice shopId clearDescription renameToStore
    sampleState
  ⟨⟨by decide, by decide⟩, h.1 (by decide), hp.2 (by decide)⟩

/-! ## Rejected creation requests -/

theorem createEndpoint_state_of_not_created {rt : Runtime} {now : Nat} {newId user : ObjectId}
    {body : CreateEndpointBody} {s : State}
    (h : (createEndpoint rt now newId user body s).1.status ≠ 201) :
    (createEndpoint rt now newId user body s).2 = s := by
  by_cases hc : (!truthyStr body.projectId || !truthyStr body.path || !truthyStr body.method
      || !truthyStr body.summary) = true
  · unfold createEndpoint
    rw [if_pos hc]
  · cases hp : Project.findById s.projects (body.projectId.getD "") with
    | castError =>
      unfold createEndpoint
      rw [if_neg hc]
      simp only [hp]
    | notFound =>
      unfold createEndpoint
      rw [if_neg hc]
      simp only [hp]
    | found project =>
      cases hacc : hasAccess project user with
      | false =>
        unfold createEndpoint
        rw [if_neg hc]
        simp only [hp, hacc]
        rfl
      | true =>
        cases hins : Endpoint.insert rt s.endpoints (newEndpoint rt now newId body) with
        | none =>
          unfold createEndpoint
          rw [if_neg hc]
          simp only [hp, hacc, hins]
          rfl
        | some stored =>
          exfalso
          apply h
          unfold createEndpoint
          rw [if_neg hc]
          simp only [hp, hacc, hins]
          rfl

/-- C8: a `createEndpoint` request that is rejected is reported without any
write.  A missing (or empty) `projectId`, `path`, `method` or `summary` gives
400, an absent project gives 404, a principal without access gives 403, and
whenever the answer is 400, 404 or 403 the state after the call (endpoint
collection, project lists, generated files) is the state before it. -/
theorem createEndpoint_rejections_keep_state (rt : Runtime) (now : Nat)
    (newId user pid : ObjectId) (body : CreateEndpointBody) (s : State) :
    ((truthyStr body.projectId = false ∨ truthyStr body.path = false
          ∨ truthyStr body.method = false ∨ truthyStr body.summary = false) →
        (createEndpoint rt now newId user body s).1.status = 400
        ∧ (createEndpoint rt now newId user body s).2 = s)
      ∧ ((truthyStr body.projectId = true ∧ truthyStr body.path = true
          ∧ truthyStr body.method = true ∧ truthyStr body.summary = true) →
        body.projectId = some pid →
        (Project.findById s.projects pid = Lookup.notFound →
          (createEndpoint rt now newId user body s).1.status = 404
          ∧ (createEndpoint rt now newId user body s).2 = s)
        ∧ (∀ project, Project.findById s.projects pid = Lookup.found project →
          ¬ (user = project.createdBy ∨ user ∈ project.teamMembers) →
          (createEndpoint rt now newId user body s).1.status = 403
          ∧ (createEndpoint rt now newId user body s).2 = s))
      ∧ (((createEndpoint rt now newId user body s).1.status = 400
          ∨ (createEndpoint rt now newId user body s).1.status = 404
          ∨ (createEndpoint rt now newId user body s).1.status = 403) →
        (createEndpoint rt now newId user body s).2 = s) := by
  refine ⟨fun h => ?_, fun h hpid => ⟨fun hp => ?_, fun project hp hacc => ?_⟩, fun h => ?_⟩
  · have hc : (!truthyStr body.projectId || !truthyStr body.path || !truthyStr body.method
        || !truthyStr body.summary) = true := by
      rcases h with h | h | h | h <;> simp [h]
    unfold createEndpoint
    rw [if_pos hc]
    exact ⟨rfl, rfl⟩
  · obtain ⟨h1, h2, h3, h4⟩ := h
    have h1s : truthyStr (some pid) = true := hpid ▸ h1
    unfold createEndpoint
    simp only [h1s, h2, h3, h4, hpid, Option.getD_some, hp]
    exact ⟨rfl, rfl⟩
  · obtain ⟨h1, h2, h3, h4⟩ := h
    have h1s : truthyStr (some pid) = true := hpid ▸ h1
    have hacc1 : hasAccess project user = false := by
      cases hb : hasAccess project user with
      | false => rfl
      | true => exact absurd ((hasAccess_iff project user).mp hb) hacc
    unfold createEndpoint
    simp only [h1s, h2, h3, h4, hpid, Option.getD_some, hp, hacc1]
    exact ⟨rfl, rfl⟩
  · apply createEndpoint_state_of_not_created
    rcases h with h | h | h <;> rw [h] <;> decide

theorem createEndpoint_rejections_keep_state_witness :
    ((truthyStr createNoSummary.projectId = false ∨ truthyStr createNoSummary.path = false
        ∨ truthyStr createNoSummary.method = false
        ∨ truthyStr createNoSummary.summary = false)
      ∧ (createEndpoint sampleRuntime 10 orderId alice createNoSummary sampleState).1.status = 400
      ∧ (createEndpoint sampleRuntime 10 orderId alice createNoSummary sampleState).2 = sampleState)
    ∧ (((truthyStr createInMissingProject.projectId = true
          ∧ truthyStr createInMissingProject.path = true
          ∧ truthyStr createInMissingProject.method = true
          ∧ truthyStr createInMissingProject.summary = true)
        ∧ createInMissingProject.projectId = some absentId
        ∧ Project.findById sampleState.projects absentId = Lookup.notFound)
      ∧ (createEndpoint sampleRuntime 10 orderId alice createInMissingProject sampleState).1.status
        = 404
      ∧ (createEndpoint sampleRuntime 10 orderId alice createInMissingProject sampleState).2
        = sampleState)
    ∧ (((truthyStr createOrders.projectId = true ∧ truthyStr createOrders.path = true
          ∧ truthyStr createOrders.method = true ∧ truthyStr createOrders.summary = true)
        ∧ createOrders.projectId = some shopId
        ∧ Project.findById sampleState.projects shopId = Lookup.found shop
        ∧ ¬ (bob = shop.createdBy ∨ bob ∈ shop.teamMembers))
      ∧ (createEndpoint sampleRuntime 10 orderId bob createOrders sampleState).1.status = 403
      ∧ (createEndpoint sampleRuntime 10 orderId bob createOrders sampleState).2 = sampleState)
    ∧ (((createEndpoint sampleRuntime 10 orderId bob createOrders sampleState).1.status = 400
        ∨ (createEndpoint sampleRuntime 10 orderId bob createOrders sampleState).1.status = 404
        ∨ (createEndpoint sampleRuntime 10 orderId bob createOrders sampleState).1.status = 403)
      ∧ (createEndpoint sampleRuntime 10 orderId bob createOrders sampleState).2 = sampleState) :=
  have ha := createEndpoint_rejections_keep_state sampleRuntime 10 orderId alice shopId
    createNoSummary sampleState
  have hb := createEndpoint_rejections_keep_state sampleRuntime 10 orderId alice absentId
    createInMissingProject sampleState
  have hc := createEndpoint_rejections_keep_state sampleRuntime 10 orderId bob shopId
    createOrders sampleState
  ⟨⟨by decide, ha.1 (by decide)⟩,
    ⟨⟨by decide, by decide, by decide⟩, (hb.2.1 (by decide) (by decide)).1 (by decide)⟩,
    ⟨⟨by decide, by decide, by decide, by decide⟩,
      (hc.2.1 (by decide) (by decide)).2 shop (by decide) (by decide)⟩,
    ⟨by decide, hc.2.2 (by decide)⟩⟩

/-! ## Creation requests that fail schema validation -/

/-- C9 (as stated, refuted): with the owner as principal and all required fields
present, a path without the leading slash and a method outside the enum are
both answered with 500, which is not a 400-class status; and a path that does
not begin with a slash but does so after trimming is accepted with 201 and
stored. -/
theorem createEndpoint_invalid_is_server_error :
    (startsWithSlash "orders" = false
      ∧ createEndpoint sampleRuntime 10 orderId alice createNoSlash sampleState
        = (⟨500, Body.message "Server error creating endpoint"⟩, sampleState))
    ∧ (sampleRuntime.toUpperCase "fetch" ∉ methodValues
      ∧ createEndpoint sampleRuntime 10 orderId alice createBadMethod sampleState
        = (⟨500, Body.message "Server error creating endpoint"⟩, sampleState))
    ∧ ¬ (400 ≤ (createEndpoint sampleRuntime 10 orderId alice createNoSlash sampleState).1.status
      ∧ (createEndpoint sampleRuntime 10 orderId alice createNoSlash sampleState).1.status < 500)
    ∧ (startsWithSlash " /orders" = false
      ∧ (createEndpoint sampleRuntime 10 orderId alice createPadded sampleState).1.status = 201
      ∧ (Endpoint.findById
          (createEndpoint sampleRuntime 10 orderId alice createPadded sampleState).2.endpoints
          orderId).toOption.map (fun e => e.path) = some "/orders") := by
  decide

/-- C9 (amended): with all required fields present, an existing project and a
principal with access, a path that after trimming does not begin with a slash,
or a method that after upper-casing is outside the enum, makes `createEndpoint`
answer 500 with the generic message and return the state unchanged, so no
endpoint is stored. -/
theorem createEndpoint_invalid_path_or_method (rt : Runtime) (now : Nat)
    (newId user pid : ObjectId) (body : CreateEndpointBody) (s : State) (project : Project)
    (path method : String)
    (h1 : truthyStr body.projectId = true) (h2 : truthyStr body.path = true)
    (h3 : truthyStr body.method = true) (h4 : truthyStr body.summary = true)
    (hpid : body.projectId = some pid) (hpath : body.path = some path)
    (hmethod : body.method = some method)
    (hp : Project.findById s.projects pid = Lookup.found project)
    (hacc : user = project.createdBy ∨ user ∈ project.teamMembers)
    (hbad : startsWithSlash (rt.trim path) = false ∨ rt.toUpperCase method ∉ methodValues) :
    createEndpoint rt now newId user body s
      = (⟨500, Body.message "Server error creating endpoint"⟩, s) := by
  have h1s : truthyStr (some pid) = true := hpid ▸ h1
  have hacc1 : hasAccess project user = true := (hasAccess_iff project user).mpr hacc
  have hv : (newEndpoint rt now newId body).validate rt = false := by
    have hpe : (newEndpoint rt now newId body).path = rt.trim path := by
      simp [newEndpoint, setPath, hpath]
    have hme : (newEndpoint rt now newId body).method = rt.toUpperCase method := by
      simp [newEndpoint, setMethod, hmethod]
    unfold Endpoint.validate
    rw [hpe, hme]
    rcases hbad with hb | hb
    · simp [hb]
    · simp [hb]
  have hins : Endpoint.insert rt s.endpoints (newEndpoint rt now newId body) = none := by
    simp [Endpoint.insert, hv]
  unfold createEndpoint
  simp only [h1s, h2, h3, h4, hpid, Option.getD_some, hp, hacc1, hins]
  rfl

theorem createEndpoint_invalid_path_or_method_witness :
    (truthyStr createBadMethod.projectId = true ∧ truthyStr createBadMethod.path = true
      ∧ truthyStr createBadMethod.method = true ∧ truthyStr createBadMethod.summary = true
      ∧ createBadMethod.projectId = some shopId ∧ createBadMethod.path = some "/orders"
      ∧ createBadMethod.method = some "fetch"
      ∧ Project.findById sampleState.projects shopId = Lookup.found shop
      ∧ (carol = shop.createdBy ∨ carol ∈ shop.teamMembers)
      ∧ (startsWithSlash (sampleRuntime.trim "/orders") = false
        ∨ sampleRuntime.toUpperCase "fetch" ∉ methodValues))
    ∧ createEndpoint sampleRuntime 10 orderId carol createBadMethod sampleState
      = (⟨500, Body.message "Server error creating endpoint"⟩, sampleState) :=
  ⟨⟨by decide, by decide, by decide, by decide, by decide, by decide, by decide, by decide,
      by decide, by decide⟩,
    createEndpoint_invalid_path_or_method sampleRuntime 10 orderId carol shopId createBadMethod
      sampleState shop "/orders" "fetch" (by decide) (by decide) (by decide) (by decide)
      (by decide) (by decide) (by decide) (by decide) (by decide) (by decide)⟩

/-! ## Deleting a project -/

theorem project_findById_castError_iff {ps : List Project} {id : String} :
    Project.findById ps id = Lookup.castError ↔ isObjectId id = false := by
  unfold Project.findById
  cases hwf : isObjectId id
  · simp
  · cases hf : ps.find? (fun q => q._id == id) <;> simp

theorem deleteProject_malformed_id (user : ObjectId) (id : String) (s : State)
    (h : isObjectId id = false) :
    deleteProject user id s = (⟨500, Body.message "Server error deleting project"⟩, s) := by
  have hc : Project.findById s.projects id = Lookup.castError :=
    project_findById_castError_iff.mpr h
  unfold deleteProject deleteProjectWrites
  simp only [hc]
  rfl

theorem deleteProject_malformed_id_sample :
    isObjectId "p9" = false
    ∧ deleteProject alice "p9" sampleState
      = (⟨500, Body.message "Server error deleting project"⟩, sampleState) := by
  decide

theorem deleteProject_of_owner {user : ObjectId} {id : String} {s : State} {project : Project}
    (hp : Project.findById s.projects id = Lookup.found project)
    (ho : user = project.createdBy) :
    deleteProjectWrites user id s
      = (⟨200, Body.message "Project deleted successfully"⟩,
          [Write.endpointDeleteMany id, Write.projectFindByIdAndDelete id]) := by
  have hb : (project.createdBy != user) = false := by simpa using ho.symm
  unfold deleteProjectWrites
  simp only [hp, hb]
  rfl

/-- C10: `deleteProject` answers 404, issues no write and returns the state
unchanged when the lookup of the identifier finds no project.  Called by the
owner of an existing project it answers 200 and issues two writes in this
order: `Endpoint.deleteMany` on the project identifier, then
`Project.findByIdAndDelete`.  After the first write the endpoints of the
project are gone and the project collection is as before; after the second no
project with the identifier and no endpoint referencing it is stored, while
the other projects, the endpoints of other projects and the generated files
are those stored before, in the same order. -/
theorem deleteProject_cascade (user : ObjectId) (id : String) (s : State) :
    (Project.findById s.projects id = Lookup.notFound →
        (deleteProject user id s).1.status = 404
        ∧ (deleteProjectWrites user id s).2 = []
        ∧ (deleteProject user id s).2 = s)
      ∧ (∀ project, Project.findById s.projects id = Lookup.found project →
        user = project.createdBy →
        (deleteProject user id s).1.status = 200
        ∧ (deleteProjectWrites user id s).2
          = [Write.endpointDeleteMany id, Write.projectFindByIdAndDelete id]
        ∧ (runWrites [Write.endpointDeleteMany id] s).projects = s.projects
        ∧ (runWrites [Write.endpointDeleteMany id] s).endpoints
          = s.endpoints.filter (fun e => e.projectId != id)
        ∧ (deleteProject user id s).2
          = runWrites [Write.projectFindByIdAndDelete id]
              (runWrites [Write.endpointDeleteMany id] s)
        ∧ Project.findById (deleteProject user id s).2.projects id = Lookup.notFound
        ∧ (∀ p ∈ (deleteProject user id s).2.projects, p._id ≠ id)
        ∧ (∀ e ∈ (deleteProject user id s).2.endpoints, e.projectId ≠ id)
        ∧ (deleteProject user id s).2.projects = s.projects.filter (fun p => p._id != id)
        ∧ (deleteProject user id s).2.endpoints
          = s.endpoints.filter (fun e => e.projectId != id)
        ∧ (deleteProject user id s).2.swaggerFiles = s.swaggerFiles
        ∧ (∀ p, p._id ≠ id →
          (p ∈ (deleteProject user id s).2.projects ↔ p ∈ s.projects))
        ∧ (∀ e, e.projectId ≠ id →
          (e ∈ (deleteProject user id s).2.endpoints ↔ e ∈ s.endpoints))) := by
  constructor
  · intro hp
    have hw : deleteProjectWrites user id s
        = (⟨404, Body.message "Project not found"⟩, []) := by
      unfold deleteProjectWrites
      simp only [hp]
    unfold deleteProject
    rw [hw]
    exact ⟨rfl, rfl, rfl⟩
  · intro project hp ho
    have hw := deleteProject_of_owner hp ho
    have hwf : isObjectId id = true := (project_findById_found_iff.mp hp).1
    have hst : (deleteProject user id s).2
        = { projects := s.projects.filter (fun p => p._id != id)
            endpoints := s.endpoints.filter (fun e => e.projectId != id)
            swaggerFiles := s.swaggerFiles } := by
      unfold deleteProject
      rw [hw]
      rfl
    have hres : (deleteProject user id s).1.status = 200 := by
      unfold deleteProject
      rw [hw]
    rw [hst, hw]
    refine ⟨hres, rfl, rfl, rfl, rfl, ?_, ?_, ?_, rfl, rfl, rfl, ?_, ?_⟩
    · rw [project_findById_notFound_iff]
      refine ⟨hwf, ?_⟩
      simp
    · intro p hmem
      simp only [List.mem_filter, bne_iff_ne] at hmem
      exact hmem.2
    · intro e hmem
      simp only [List.mem_filter, bne_iff_ne] at hmem
      exact hmem.2
    · intro p hne
      simp only [List.mem_filter, bne_iff_ne]
      exact ⟨fun h => h.1, fun h => ⟨h, hne⟩⟩
    · intro e hne
      simp only [List.mem_filter, bne_iff_ne]
      exact ⟨fun h => h.1, fun h => ⟨h, hne⟩⟩

theorem deleteProject_cascade_witness :
    (Project.findById sampleState.projects absentId = Lookup.notFound
      ∧ (deleteProject alice absentId sampleState).1.status = 404
      ∧ (deleteProjectWrites alice absentId sampleState).2 = []
      ∧ (deleteProject alice absentId sampleState).2 = sampleState)
    ∧ ((Project.findById sampleState.projects shopId = Lookup.found shop
        ∧ alice = shop.createdBy)
      ∧ (deleteProject alice shopId sampleState).1.status = 200
      ∧ (deleteProjectWrites alice shopId sampleState).2
        = [Write.endpointDeleteMany shopId, Write.projectFindByIdAndDelete shopId]
      ∧ (runWrites [Write.endpointDeleteMany shopId] sampleState).projects
        = sampleState.projects
      ∧ (runWrites [Write.endpointDeleteMany shopId] sampleState).endpoints
        = sampleState.endpoints.filter (fun e => e.projectId != shopId)
      ∧ (deleteProject alice shopId sampleState).2
        = runWrites [Write.projectFindByIdAndDelete shopId]
            (runWrites [Write.endpointDeleteMany shopId] sampleState)
      ∧ Project.findById (deleteProject alice shopId sampleState).2.projects shopId
        = Lookup.notFound
      ∧ (∀ p ∈ (deleteProject alice shopId sampleState).2.projects, p._id ≠ shopId)
      ∧ (∀ e ∈ (deleteProject alice shopId sampleState).2.endpoints, e.projectId ≠ shopId)
      ∧ (deleteProject alice shopId sampleState).2.projects
        = sampleState.projects.filter (fun p => p._id != shopId)
      ∧ (deleteProject alice shopId sampleState).2.endpoints
        = sampleState.endpoints.filter (fun e => e.projectId != shopId)
      ∧ (deleteProject alice shopId sampleState).2.swaggerFiles = sampleState.swaggerFiles
      ∧ (∀ p, p._id ≠ shopId →
        (p ∈ (deleteProject alice shopId sampleState).2.projects ↔ p ∈ sampleState.projects))
      ∧ (∀ e, e.projectId ≠ shopId →
        (e ∈ (deleteProject alice shopId sampleState).2.endpoints
          ↔ e ∈ sampleState.endpoints))) :=
  ⟨⟨by decide, (deleteProject_cascade alice absentId sampleState).1 (by decide)⟩,
    ⟨by decide, by decide⟩,
    (deleteProject_cascade alice shopId sampleState).2 shop (by decide) (by decide)⟩

/-! ## Regenerating twice -/

theorem saveSwaggerFile_twice (files : List (ObjectId × String)) (id : ObjectId)
    (doc : String) :
    saveSwaggerFile (saveSwaggerFile files id doc) id doc = saveSwaggerFile files id doc := by
  unfold saveSwaggerFile
  rw [List.filter_cons]
  simp only [bne_self_eq_false, Bool.false_eq_true, if_false, List.filter_filter, Bool.and_self]

theorem getProjectSwagger_of_found (rt : Runtime) (user : Option ObjectId) {id : ObjectId}
    {s : State} {project : Project}
    (hp : Project.findById s.projects id = Lookup.found project) :
    getProjectSwagger rt user id s
      = (⟨200, Body.swagger (rt.generateSwaggerJson project (Endpoint.find s.endpoints id))⟩,
          { projects := s.projects
            endpoints := s.endpoints
            swaggerFiles := saveSwaggerFile s.swaggerFiles id
              (rt.generateSwaggerJson project (Endpoint.find s.endpoints id)) }) := by
  unfold getProjectSwagger
  simp only [hp]

/-- C11: regeneration is idempotent.  For an existing project, `getProjectSwagger`
leaves the project collection and the endpoint collection as they are and
answers 200 with the generated document; a second call right after the first
gives the same response, and the file stored under the project identifier (and
indeed the whole state) after the second call is the one after the first. -/
theorem getProjectSwagger_idempotent (rt : Runtime) (user1 user2 : Option ObjectId)
    (id : ObjectId) (s : State) (project : Project)
    (hp : Project.findById s.projects id = Lookup.found project) :
    (getProjectSwagger rt user1 id s).2.projects = s.projects
    ∧ (getProjectSwagger rt user1 id s).2.endpoints = s.endpoints
    ∧ (getProjectSwagger rt user1 id s).1
      = ⟨200, Body.swagger (rt.generateSwaggerJson project (Endpoint.find s.endpoints id))⟩
    ∧ (getProjectSwagger rt user2 id (getProjectSwagger rt user1 id s).2).1
      = (getProjectSwagger rt user1 id s).1
    ∧ fetchSwaggerFile (getProjectSwagger rt user1 id s).2.swaggerFiles id
      = some (rt.generateSwaggerJson project (Endpoint.find s.endpoints id))
    ∧ fetchSwaggerFile
        (getProjectSwagger rt user2 id (getProjectSwagger rt user1 id s).2).2.swaggerFiles id
      = fetchSwaggerFile (getProjectSwagger rt user1 id s).2.swaggerFiles id
    ∧ (getProjectSwagger rt user2 id (getProjectSwagger rt user1 id s).2).2
      = (getProjectSwagger rt user1 id s).2 := by
  have h1 := getProjectSwagger_of_found rt user1 hp
  have hp1 : Project.findById (getProjectSwagger rt user1 id s).2.projects id = Lookup.found project := by
    rw [h1]; exact hp
  have h2 := getProjectSwagger_of_found rt user2 hp1
  have hst : (getProjectSwagger rt user2 id (getProjectSwagger rt user1 id s).2).2
      = (getProjectSwagger rt user1 id s).2 := by
    rw [h2, h1]
    show ({ projects := s.projects, endpoints := s.endpoints,
            swaggerFiles := saveSwaggerFile (saveSwaggerFile s.swaggerFiles id _) id _ } : State)
      = _
    rw [saveSwaggerFile_twice]
  refine ⟨by rw [h1], by rw [h1], by rw [h1], ?_, ?_, by rw [hst], hst⟩
  · rw [h2, h1]
  · rw [h1]
    exact fetchSwaggerFile_saveSwaggerFile _ _ _

theorem getProjectSwagger_idempotent_witness :
    Project.findById sampleState.projects shopId = Lookup.found shop
    ∧ ((getProjectSwagger sampleRuntime none shopId sampleState).2.projects = sampleState.projects
      ∧ (getProjectSwagger sampleRuntime none shopId sampleState).2.endpoints
        = sampleState.endpoints
      ∧ (getProjectSwagger sampleRuntime none shopId sampleState).1
        = ⟨200, Body.swagger
            (sampleRuntime.generateSwaggerJson shop (Endpoint.find sampleState.endpoints shopId))⟩
      ∧ (getProjectSwagger sampleRuntime (some alice) shopId
            (getProjectSwagger sampleRuntime none shopId sampleState).2).1
        = (getProjectSwagger sampleRuntime none shopId sampleState).1
      ∧ fetchSwaggerFile (getProjectSwagger sampleRuntime none shopId sampleState).2.swaggerFiles
          shopId
        = some (sampleRuntime.generateSwaggerJson shop (Endpoint.find sampleState.endpoints shopId))
      ∧ fetchSwaggerFile
          (getProjectSwagger sampleRuntime (some alice) shopId
            (getProjectSwagger sampleRuntime none shopId sampleState).2).2.swaggerFiles shopId
        = fetchSwaggerFile (getProjectSwagger sampleRuntime none shopId sampleState).2.swaggerFiles
          shopId
      ∧ (getProjectSwagger sampleRuntime (some alice) shopId
            (getProjectSwagger sampleRuntime none shopId sampleState).2).2
        = (getProjectSwagger sampleRuntime none shopId sampleState).2) :=
  ⟨by decide, getProjectSwagger_idempotent sampleRuntime none (some alice) shopId sampleState shop
    (by decide)⟩

/-! ## Presence tests and truthiness tests in `updateEndpoint` -/

/-- C12 (as stated, refuted): an update of the stored endpoint `orderId` that carries
an empty list of tags, an empty list of security requirements, `null` as request
body and `false` as deprecation flag succeeds; the stored request body is kept
and the flag becomes `false`, but the stored tags and security requirements are
replaced by the empty lists, not left unchanged. -/
theorem updateEndpoint_applies_empty_lists :
    Endpoint.findById itemState.endpoints orderId = Lookup.found createItem
    ∧ (updateEndpoint sampleRuntime 10 alice orderId clearLists itemState).1.status = 200
    ∧ Endpoint.findById
        (updateEndpoint sampleRuntime 10 alice orderId clearLists itemState).2.endpoints orderId
      = Lookup.found { createItem with tags := [], security := [], deprecated := false, updatedAt := 10 }
    ∧ (Endpoint.findById
        (updateEndpoint sampleRuntime 10 alice orderId clearLists itemState).2.endpoints
        orderId).toOption.map (fun e => e.tags) ≠ some createItem.tags
    ∧ (Endpoint.findById
        (updateEndpoint sampleRuntime 10 alice orderId clearLists itemState).2.endpoints
        orderId).toOption.map (fun e => e.security) ≠ some createItem.security := by
  decide

/-- C12 (amended): after a successful `updateEndpoint`, `deprecated` has the
value carried by the request whenever one is present (`false` included); a
request body that is a falsy value leaves the stored request body unchanged;
and an empty list of tags or of security requirements, being truthy, is
applied: the stored list becomes empty. -/
theorem updateEndpoint_presence_and_truthiness (rt : Runtime) (now : Nat)
    (user id : ObjectId) (body : UpdateEndpointBody) (s : State)
    (h : (updateEndpoint rt now user id body s).1.status = 200) :
    ∃ endpoint endpoint1, Endpoint.findById s.endpoints id = Lookup.found endpoint
      ∧ Endpoint.findById (updateEndpoint rt now user id body s).2.endpoints id
        = Lookup.found endpoint1
      ∧ (∀ d, body.deprecated = some d → endpoint1.deprecated = d)
      ∧ (∀ v, body.requestBody = some v → v.truthy = false →
        endpoint1.requestBody = endpoint.requestBody)
      ∧ (body.tags = some [] → endpoint1.tags = [])
      ∧ (body.security = some [] → endpoint1.security = []) := by
  obtain ⟨endpoint, project, he, -, -, -, hst⟩ := updateEndpoint_ok h
  refine ⟨endpoint, applyEndpointUpdate rt now body endpoint, he, ?_, ?_, ?_, ?_, ?_⟩
  · rw [hst]
    exact endpoint_findById_replace (applyEndpointUpdate rt now body endpoint) he
      (endpoint_findById_id (e := endpoint) he)
  · intro d hd
    simp [applyEndpointUpdate, hd]
  · intro v hv hf
    simp [applyEndpointUpdate, hv, truthyMixed, hf]
  · intro ht
    simp [applyEndpointUpdate, ht, truthyArr, setTags]
  · intro hs
    simp [applyEndpointUpdate, hs, truthyArr]

theorem updateEndpoint_presence_and_truthiness_witness :
    (updateEndpoint sampleRuntime 10 alice orderId clearLists itemState).1.status = 200
    ∧ ∃ endpoint endpoint1, Endpoint.findById itemState.endpoints orderId = Lookup.found endpoint
      ∧ Endpoint.findById
          (updateEndpoint sampleRuntime 10 alice orderId clearLists itemState).2.endpoints orderId
        = Lookup.found endpoint1
      ∧ (∀ d, clearLists.deprecated = some d → endpoint1.deprecated = d)
      ∧ (∀ v, clearLists.requestBody = some v → v.truthy = false →
        endpoint1.requestBody = endpoint.requestBody)
      ∧ (clearLists.tags = some [] → endpoint1.tags = [])
      ∧ (clearLists.security = some [] → endpoint1.security = []) :=
  ⟨by decide, updateEndpoint_presence_and_truthiness sampleRuntime 10 alice orderId clearLists
    itemState (by decide)⟩

end SwaggerManager
